import Mathlib

/-!
Shallow embedding of the ColourSS CSS-color parser (`src/lib.rs`) in Lean 4.

Modelling conventions, stated once here and referenced below:

* Rust `&str` values are modelled as `List Char` (`Str`); byte-based indexing
  (used only by `parse_hex`) is modelled through UTF-8 byte counting with
  `Char.utf8Size`, and a byte slice whose endpoint is not a char boundary is a
  Rust panic, modelled by the `PRes.crash` result.
* Rust `f32` parsing and arithmetic are modelled by exact rational arithmetic
  over `ℚ`: every numeric literal accepted by the grammar denotes an exact
  rational.  Overflow to infinity, underflow to zero and `inf`/`nan`/`NaN`
  literal forms are not modelled (an `inf`/`nan` literal is mapped to a parse
  failure; in the source such a value is instead produced and then rejected by
  the very next range check with the same error constructor).
* `str::to_lowercase` / `char::is_whitespace` are modelled on their ASCII
  fragment (the named-color table and every syntactic delimiter are ASCII).
* The named-color `match` of `parse_named` is modelled as first-match lookup
  in an association list carrying the same arms in the same order.
-/

namespace ColourSS

/-- A Rust string, as its sequence of unicode scalar values. -/
abbrev Str := List Char

/-- The `Color` struct of `src/lib.rs`: three `u8` channels (modelled as `Nat`,
with boundedness proved, not built in). -/
structure Color where
  r : Nat
  g : Nat
  b : Nat
deriving DecidableEq

/-- The `ParseError` enum of `src/lib.rs`. -/
inductive ParseError where
  | invalidHexFormat
  | invalidRgbFormat
  | invalidHslFormat
  | invalidComponentValue : Str → ParseError
  | unknownColorName : Str → ParseError
  | parseFailure
deriving DecidableEq

/-- Result of running a Rust function that returns `Result<α, ParseError>` but
may also panic: `crash` models a Rust panic. -/
inductive PRes (α : Type) where
  | ok : α → PRes α
  | err : ParseError → PRes α
  | crash : PRes α
deriving DecidableEq

/-- ASCII fragment of `char::is_whitespace` (see module conventions). -/
def isWsB (c : Char) : Bool :=
  c == ' ' || c == '\t' || c == '\n' || c == '\r' || c == '\x0b' || c == '\x0c'

/-- Rust `str::trim` (ASCII whitespace fragment). -/
def trimS (s : Str) : Str :=
  ((s.dropWhile isWsB).reverse.dropWhile isWsB).reverse

/-- Rust `s.starts_with(p)` on strings. -/
def startsL : Str → Str → Bool
  | _, [] => true
  | [], _ :: _ => false
  | c :: cs, p :: ps => c == p && startsL cs ps

/-- Rust `s.ends_with(c)` for a single char pattern. -/
def endsC (s : Str) (c : Char) : Bool :=
  match s.getLast? with
  | some d => d == c
  | none => false

/-- Rust `s.ends_with(p)` for a string pattern. -/
def endsL (s p : Str) : Bool := startsL s.reverse p.reverse

/-- UTF-8 byte length of a string (`str::len`). -/
def utf8Len (s : Str) : Nat := (s.map Char.utf8Size).sum

/-- Drop `k` UTF-8 bytes from the front; `none` when `k` is not a char
boundary (or exceeds the length) — the Rust slice would panic there. -/
def dropBytes : Str → Nat → Option Str
  | cs, 0 => some cs
  | [], _ + 1 => none
  | c :: cs, k + 1 =>
    if c.utf8Size ≤ k + 1 then dropBytes cs (k + 1 - c.utf8Size) else none

/-- Take `k` UTF-8 bytes from the front; `none` when `k` is not a char
boundary of the string — the Rust slice would panic there. -/
def takeBytes : Str → Nat → Option Str
  | _, 0 => some []
  | [], _ + 1 => none
  | c :: cs, k + 1 =>
    if c.utf8Size ≤ k + 1 then
      match takeBytes cs (k + 1 - c.utf8Size) with
      | some t => some (c :: t)
      | none => none
    else none

/-- The Rust byte slice `&s[i..j]` (with `i ≤ j`); `none` models the
boundary-check panic. -/
def sliceB (s : Str) (i j : Nat) : Option Str :=
  match dropBytes s i with
  | some t => takeBytes t (j - i)
  | none => none

/-- Value of one hex digit, as in `u8::from_str_radix(_, 16)`. -/
def hexDigitVal (c : Char) : Option Nat :=
  if '0' ≤ c ∧ c ≤ '9' then some (c.toNat - 48)
  else if 'a' ≤ c ∧ c ≤ 'f' then some (c.toNat - 87)
  else if 'A' ≤ c ∧ c ≤ 'F' then some (c.toNat - 55)
  else none

/-- Accumulate the value of a hex-digit string. -/
def hexValAux : Str → Nat → Option Nat
  | [], acc => some acc
  | c :: cs, acc =>
    match hexDigitVal c with
    | some d => hexValAux cs (16 * acc + d)
    | none => none

/-- Strip one leading `'+'` (accepted by Rust's integer `from_str` parsers). -/
def stripPlus : Str → Str
  | [] => []
  | c :: rest => if c = '+' then rest else c :: rest

/-- Rust `u8::from_str_radix(s, 16)`: optional `'+'`, then a nonempty run of hex
digits whose value fits in a `u8`. -/
def fromStrRadix16U8 (s : Str) : Option Nat :=
  match stripPlus s with
  | [] => none
  | body =>
    match hexValAux body 0 with
    | some n => if n ≤ 255 then some n else none
    | none => none

/-- The 3- and 4-digit arms of `parse_hex` (the 4th digit — alpha — is never
read).  Slices and channel decodes happen in source order, so an early decode
error is reported before a later boundary panic would be reached. -/
def hexShort (hex : Str) : PRes Color :=
  match sliceB hex 0 1 with
  | none => .crash
  | some ra =>
    match fromStrRadix16U8 (ra ++ ra) with
    | none => .err .invalidHexFormat
    | some r =>
      match sliceB hex 1 2 with
      | none => .crash
      | some ga =>
        match fromStrRadix16U8 (ga ++ ga) with
        | none => .err .invalidHexFormat
        | some g =>
          match sliceB hex 2 3 with
          | none => .crash
          | some ba =>
            match fromStrRadix16U8 (ba ++ ba) with
            | none => .err .invalidHexFormat
            | some b => .ok ⟨r, g, b⟩

/-- The 6- and 8-digit arms of `parse_hex` (trailing alpha digits — bytes 6
and 7 — are never read). -/
def hexLong (hex : Str) : PRes Color :=
  match sliceB hex 0 2 with
  | none => .crash
  | some ra =>
    match fromStrRadix16U8 ra with
    | none => .err .invalidHexFormat
    | some r =>
      match sliceB hex 2 4 with
      | none => .crash
      | some ga =>
        match fromStrRadix16U8 ga with
        | none => .err .invalidHexFormat
        | some g =>
          match sliceB hex 4 6 with
          | none => .crash
          | some ba =>
            match fromStrRadix16U8 ba with
            | none => .err .invalidHexFormat
            | some b => .ok ⟨r, g, b⟩

/-- Rust `parse_hex` of `src/lib.rs`: dispatch on the UTF-8 byte length of the
portion after `'#'`. -/
def parseHex (input : Str) : PRes Color :=
  let hex := input.drop 1
  match utf8Len hex with
  | 3 => hexShort hex
  | 4 => hexShort hex
  | 6 => hexLong hex
  | 8 => hexLong hex
  | _ => .err .invalidHexFormat

/-- ASCII digit test. -/
def isDigitB (c : Char) : Bool := '0' ≤ c && c ≤ '9'

/-- Value of an ASCII digit string (assumed all digits). -/
def digitsToNat (s : Str) : Nat := s.foldl (fun acc c => 10 * acc + (c.toNat - 48)) 0

/-- Exponent part of Rust's float grammar: optional sign then nonempty digits. -/
def parseExp : Str → Option ℤ
  | [] => none
  | '+' :: ds => if ds ≠ [] ∧ ds.all isDigitB then some (digitsToNat ds : ℤ) else none
  | '-' :: ds => if ds ≠ [] ∧ ds.all isDigitB then some (-(digitsToNat ds : ℤ)) else none
  | ds => if ds.all isDigitB then some (digitsToNat ds : ℤ) else none

/-- Unsigned part of Rust's `f32` grammar: `digits [. digits] [(e|E) exp]`,
with at least one digit in the mantissa.  The value is returned as the exact
rational it denotes (see module conventions on `f32`). -/
def parseF32Body (s : Str) : Option ℚ :=
  let ipart := s.takeWhile isDigitB
  let rest1 := s.drop ipart.length
  match rest1 with
  | '.' :: r2 =>
    let fpart := r2.takeWhile isDigitB
    let rest2 := r2.drop fpart.length
    if ipart = [] ∧ fpart = [] then none
    else
      let mant : ℚ := (digitsToNat ipart : ℚ) + (digitsToNat fpart : ℚ) / (10 : ℚ) ^ fpart.length
      match rest2 with
      | [] => some mant
      | 'e' :: ex => (parseExp ex).map (fun e => mant * (10 : ℚ) ^ e)
      | 'E' :: ex => (parseExp ex).map (fun e => mant * (10 : ℚ) ^ e)
      | _ => none
  | _ =>
    if ipart = [] then none
    else
      let mant : ℚ := (digitsToNat ipart : ℚ)
      match rest1 with
      | [] => some mant
      | 'e' :: ex => (parseExp ex).map (fun e => mant * (10 : ℚ) ^ e)
      | 'E' :: ex => (parseExp ex).map (fun e => mant * (10 : ℚ) ^ e)
      | _ => none

/-- Rust `s.parse::<f32>()` (see module conventions on `f32`). -/
def parseF32 : Str → Option ℚ
  | [] => none
  | '+' :: rest => parseF32Body rest
  | '-' :: rest => (parseF32Body rest).map (fun q => -q)
  | s => parseF32Body s

/-- Rust `s.parse::<u8>()`: optional `'+'`, nonempty ASCII digits, value ≤ 255. -/
def parseU8 (s : Str) : Option Nat :=
  match stripPlus s with
  | [] => none
  | body =>
    if body.all isDigitB then
      if digitsToNat body ≤ 255 then some (digitsToNat body) else none
    else none

/-- Rust `f32::round` (half away from zero), on the exact rational. -/
def rRound (x : ℚ) : ℤ := if 0 ≤ x then ⌊x + 1 / 2⌋ else -⌊-x + 1 / 2⌋

/-- Rust's saturating float-to-`u8` `as` cast applied to an integer value. -/
def u8ofZ (z : ℤ) : Nat := if z < 0 then 0 else if 255 < z then 255 else z.toNat

/-- Rust's saturating, truncating float-to-`u8` `as` cast, on the exact
rational. -/
def asU8 (x : ℚ) : Nat := if x < 0 then 0 else if 255 < x then 255 else (⌊x⌋).toNat

/-- Rust `str::strip_suffix('%')`: strips exactly one trailing `'%'`. -/
def stripOnePct (s : Str) : Option Str :=
  match s.getLast? with
  | some '%' => some s.dropLast
  | _ => none

/-- Rust `parse_rgb_component` of `src/lib.rs`. -/
def parseRgbComponent (comp0 : Str) : PRes Nat :=
  let comp := trimS comp0
  match stripOnePct comp with
  | some valStr =>
    match parseF32 valStr with
    | none => .err (.invalidComponentValue comp)
    | some v =>
      if 0 ≤ v ∧ v ≤ 100 then .ok (u8ofZ (rRound (v / 100 * 255)))
      else .err (.invalidComponentValue comp)
  | none =>
    match parseU8 comp with
    | some n => .ok n
    | none => .err (.invalidComponentValue comp)

/-- Rust `str::replace(',', " ")` (single-space replacement). -/
def commaToSpace (s : Str) : Str := s.map (fun c => if c = ',' then ' ' else c)

/-- One step of the whitespace splitter fold. -/
def swAux (c : Char) (acc : List Str) : List Str :=
  if isWsB c then [] :: acc
  else
    match acc with
    | [] => [[c]]
    | g :: gs => (c :: g) :: gs

/-- Raw groups of `split_whitespace` (empty groups still present). -/
def swRun (cs : Str) : List Str := cs.foldr swAux []

/-- Rust `str::split_whitespace().collect()`. -/
def splitWs (cs : Str) : List Str := (swRun cs).filter (fun g => !g.isEmpty)

/-- Rust `str::split_once('/')`. -/
def splitSlash (s : Str) : Option (Str × Str) :=
  if '/' ∈ s then
    some (s.takeWhile (fun c => c ≠ '/'), (s.dropWhile (fun c => c ≠ '/')).drop 1)
  else none

/-- Byte index of the first `'('` (`str::find`); all relevant characters are
ASCII so byte and char indices of the delimiters coincide. -/
def firstIdx (s : Str) (c : Char) : Option Nat :=
  if c ∈ s then some (s.takeWhile (fun x => x ≠ c)).length else none

/-- Byte index of the last `')'` (`str::rfind`). -/
def lastIdx (s : Str) (c : Char) : Option Nat :=
  if c ∈ s then some (s.length - 1 - (s.reverse.takeWhile (fun x => x ≠ c)).length)
  else none

/-- The component-parsing tail of `parse_rgb` (lines after the arity and
4-token-rule checks): parse the first three tokens, ignore a 4th. -/
def rgbTriple (p0 p1 p2 : Str) : PRes Color :=
  match parseRgbComponent p0 with
  | .err e => .err e
  | .crash => .crash
  | .ok r =>
    match parseRgbComponent p1 with
    | .err e => .err e
    | .crash => .crash
    | .ok g =>
      match parseRgbComponent p2 with
      | .err e => .err e
      | .crash => .crash
      | .ok b => .ok ⟨r, g, b⟩

/-- Body of `parse_rgb` from the slash split onward, applied to the
parenthesized content. -/
def rgbCore (content : Str) : PRes Color :=
  let pair := splitSlash content
  let colorStr := match pair with | some p => p.1 | none => content
  let hasSlash := pair.isSome
  let parts := splitWs (commaToSpace colorStr)
  match parts with
  | [p0, p1, p2] => rgbTriple p0 p1 p2
  | [p0, p1, p2, _p3] =>
    if ¬ hasSlash ∧ ¬ (',' ∈ content) then .err .invalidRgbFormat
    else rgbTriple p0 p1 p2
  | _ => .err .invalidRgbFormat

/-- Rust `parse_rgb` of `src/lib.rs`: locate the parenthesized content, then
`rgbCore`.  `crash` marks the (dispatcher-unreachable) slice panic when the
last `')'` lies before the first `'('`. -/
def parseRgb (input : Str) : PRes Color :=
  match firstIdx input '(' with
  | none => .err .invalidRgbFormat
  | some i =>
    match lastIdx input ')' with
    | none => .err .invalidRgbFormat
    | some j =>
      if j < i + 1 then .crash
      else rgbCore ((input.drop (i + 1)).take (j - (i + 1)))

/-- Rust `str::trim_end_matches` with fuel (each round strips one copy of the
suffix; the fuel `s.length` dominates the number of rounds). -/
def stripSfxFuel : Nat → Str → Str → Str
  | 0, _, s => s
  | n + 1, sfx, s =>
    if endsL s sfx ∧ sfx ≠ [] then stripSfxFuel n sfx (s.take (s.length - sfx.length))
    else s

/-- Rust `str::trim_end_matches(pat)`: strip every trailing copy of `pat`. -/
def stripAllSfx (sfx s : Str) : Str := stripSfxFuel s.length sfx s

/-- Hue token: `parts[0].trim().trim_end_matches("deg").parse::<f32>()`. -/
def parseHueTok (p : Str) : Option ℚ := parseF32 (stripAllSfx ("deg".toList) (trimS p))

/-- Saturation/lightness token:
`parts[i].trim().trim_end_matches('%').parse::<f32>()`. -/
def parsePctTok (p : Str) : Option ℚ := parseF32 (stripAllSfx ['%'] (trimS p))

/-- Smallest `k ≤ 100` with `d ∣ 10^k`, used by the float formatter. -/
def pow10Div (d : Nat) : Option Nat := (List.range 101).find? (fun k => 10 ^ k % d = 0)

/-- Fraction digits, zero-padded on the left to `k` places. -/
def padFrac (k fp : Nat) : Str :=
  List.replicate (k - (Nat.repr fp).toList.length) '0' ++ (Nat.repr fp).toList

/-- Rust `format!("{}", x)` for the float values reaching the HSL range errors:
exact terminating decimal, no decimal point for integers (matches Rust's
shortest-round-trip display on the exactly-represented values arising here). -/
def fmtQ (x : ℚ) : Str :=
  let sign : Str := if x < 0 then ['-'] else []
  let n := x.num.natAbs
  let d := x.den
  match pow10Div d with
  | some k =>
    let m := n * (10 ^ k / d)
    if m % 10 ^ k = 0 then sign ++ (Nat.repr (m / 10 ^ k)).toList
    else sign ++ (Nat.repr (m / 10 ^ k)).toList ++ '.' :: padFrac k (m % 10 ^ k)
  | none => sign ++ (Nat.repr n).toList ++ '/' :: (Nat.repr d).toList

/-- Rust `hue_to_rgb` of `src/lib.rs` (two sequential wrap `if`s, then the
three-branch fold). -/
def hueToRgb (p q t0 : ℚ) : ℚ :=
  let t1 := if t0 < 0 then t0 + 1 else t0
  let t := if t1 > 1 then t1 - 1 else t1
  if t < 1 / 6 then p + (q - p) * 6 * t
  else if t < 1 / 2 then q
  else if t < 2 / 3 then p + (q - p) * (2 / 3 - t) * 6

  else p

/-- The HSL→RGB conversion of `parse_hsl` on the normalized `h`, `s`, `l`. -/
def hslToRgb (h s l : ℚ) : Color :=
  if s = 0 then
    let v := asU8 (l * 255)
    ⟨v, v, v⟩
  else
    let q := if l < 1 / 2 then l * (1 + s) else l + s - l * s
    let p := 2 * l - q
    ⟨asU8 (hueToRgb p q (h + 1 / 3) * 255),
     asU8 (hueToRgb p q h * 255),
     asU8 (hueToRgb p q (h - 1 / 3) * 255)⟩

/-- The per-token tail of `parse_hsl` (lines from the hue parse onward),
applied to the first three tokens; a 4th token is never read. -/
def hslTriple (p0 p1 p2 : Str) : PRes Color :=
  match parseHueTok p0 with
  | none => .err (.invalidComponentValue p0)
  | some h =>
    match parsePctTok p1 with
    | none => .err (.invalidComponentValue p1)
    | some s =>
      match parsePctTok p2 with
      | none => .err (.invalidComponentValue p2)
      | some l =>
        if ¬ (0 ≤ h ∧ h ≤ 360) then .err (.invalidComponentValue ("H: ".toList ++ fmtQ h))
        else if ¬ (0 ≤ s ∧ s ≤ 100) then .err (.invalidComponentValue ("S: ".toList ++ fmtQ s))
        else if ¬ (0 ≤ l ∧ l ≤ 100) then .err (.invalidComponentValue ("L: ".toList ++ fmtQ l))
        else .ok (hslToRgb (h / 360) (s / 100) (l / 100))

/-- Body of `parse_hsl` from the slash split onward, applied to the
parenthesized content. -/
def hslCore (content : Str) : PRes Color :=
  let pair := splitSlash content
  let colorStr := match pair with | some p => p.1 | none => content
  let hasSlash := pair.isSome
  let parts := splitWs (commaToSpace colorStr)
  match parts with
  | [p0, p1, p2] => hslTriple p0 p1 p2
  | [p0, p1, p2, _p3] =>
    if ¬ hasSlash ∧ ¬ (',' ∈ content) then .err .invalidHslFormat
    else hslTriple p0 p1 p2
  | _ => .err .invalidHslFormat

/-- Rust `parse_hsl` of `src/lib.rs`. -/
def parseHsl (input : Str) : PRes Color :=
  match firstIdx input '(' with
  | none => .err .invalidHslFormat
  | some i =>
    match lastIdx input ')' with
    | none => .err .invalidHslFormat
    | some j =>
      if j < i + 1 then .crash
      else hslCore ((input.drop (i + 1)).take (j - (i + 1)))

/-- ASCII fragment of per-char lowercasing (see module conventions). -/
def lowChar (c : Char) : Char :=
  if c = 'A' then 'a' else if c = 'B' then 'b' else if c = 'C' then 'c'
  else if c = 'D' then 'd' else if c = 'E' then 'e' else if c = 'F' then 'f'
  else if c = 'G' then 'g' else if c = 'H' then 'h' else if c = 'I' then 'i'
  else if c = 'J' then 'j' else if c = 'K' then 'k' else if c = 'L' then 'l'
  else if c = 'M' then 'm' else if c = 'N' then 'n' else if c = 'O' then 'o'
  else if c = 'P' then 'p' else if c = 'Q' then 'q' else if c = 'R' then 'r'
  else if c = 'S' then 's' else if c = 'T' then 't' else if c = 'U' then 'u'
  else if c = 'V' then 'v' else if c = 'W' then 'w' else if c = 'X' then 'x'
  else if c = 'Y' then 'y' else if c = 'Z' then 'z' else c

/-- Rust `str::to_lowercase` (ASCII fragment). -/
def lowerS (s : Str) : Str := s.map lowChar

/-- The named-color `match` arms of `parse_named`, in source order. -/
def namedTable : List (Str × Color) :=
  [("red".toList, ⟨255, 0, 0⟩),
   ("lime".toList, ⟨0, 255, 0⟩),
   ("blue".toList, ⟨0, 0, 255⟩),
   ("white".toList, ⟨255, 255, 255⟩),
   ("black".toList, ⟨0, 0, 0⟩),
   ("yellow".toList, ⟨255, 255, 0⟩),
   ("cyan".toList, ⟨0, 255, 255⟩),
   ("magenta".toList, ⟨255, 0, 255⟩),
   ("aqua".toList, ⟨0, 255, 255⟩),
   ("fuchsia".toList, ⟨255, 0, 255⟩),
   ("orange".toList, ⟨255, 165, 0⟩),
   ("pink".toList, ⟨255, 192, 203⟩),
   ("brown".toList, ⟨165, 42, 42⟩),
   ("silver".toList, ⟨192, 192, 192⟩),
   ("gray".toList, ⟨128, 128, 128⟩),
   ("maroon".toList, ⟨128, 0, 0⟩),
   ("olive".toList, ⟨128, 128, 0⟩),
   ("green".toList, ⟨0, 128, 0⟩),
   ("purple".toList, ⟨128, 0, 128⟩),
   ("teal".toList, ⟨0, 128, 128⟩),
   ("navy".toList, ⟨0, 0, 128⟩),
   ("rebeccapurple".toList, ⟨102, 51, 153⟩),
   ("coffee".toList, ⟨192, 255, 238⟩)]

/-- Rust `parse_named` of `src/lib.rs`: case-insensitive lookup; the error carries
the original (pre-lowercasing) input. -/
def parseNamed (input : Str) : PRes Color :=
  match namedTable.find? (fun p => p.1 == lowerS input) with
  | some p => .ok p.2
  | none => .err (.unknownColorName input)

/-- Rust `parse_color` of `src/lib.rs`: trim, then dispatch on prefix/suffix in
fixed precedence. -/
def parseColor (input0 : Str) : PRes Color :=
  let input := trimS input0
  if input = [] then .err .invalidHexFormat
  else if startsL input ['#'] then parseHex input
  else if (startsL input ("rgb(".toList) || startsL input ("rgba(".toList)) && endsC input ')' then
    parseRgb input
  else if (startsL input ("hsl(".toList) || startsL input ("hsla(".toList)) && endsC input ')' then
    parseHsl input
  else parseNamed input

/-- One hex digit character for value `d < 16`; `u` selects the uppercase
letter form. -/
def dChar (d : Nat) (u : Bool) : Char :=
  if d < 10 then Char.ofNat (48 + d) else Char.ofNat ((if u then 55 else 87) + d)

/-- The canonical `#RRGGBB` rendering of channel values, each digit's case
chosen by the mask `u`. -/
def hexRender6 (r g b : Nat) (u : Fin 6 → Bool) : Str :=
  '#' :: (dChar (r / 16) (u 0) :: dChar (r % 16) (u 1) ::
    dChar (g / 16) (u 2) :: dChar (g % 16) (u 3) ::
    dChar (b / 16) (u 4) :: dChar (b % 16) (u 5) :: [])

/-- A well-formed component token: nonempty, and free of whitespace and of
the delimiter characters of the functional syntax. -/
def isTok (t : Str) : Prop :=
  t ≠ [] ∧ ∀ x ∈ t, isWsB x = false ∧ x ≠ ',' ∧ x ≠ '/' ∧ x ≠ ')'

instance (t : Str) : Decidable (isTok t) := by
  unfold isTok; infer_instance

/-! ### Generic string lemmas -/

theorem startsL_iff (s p : Str) : startsL s p = true ↔ ∃ r, s = p ++ r := by
  induction p generalizing s with
  | nil => simp [startsL]
  | cons a ps ih =>
    cases s with
    | nil => simp [startsL]
    | cons c cs =>
      simp only [startsL, Bool.and_eq_true, beq_iff_eq, ih]
      constructor
      · rintro ⟨h1, r, h2⟩
        exact ⟨r, by simp [h1, h2]⟩
      · rintro ⟨r, h⟩
        simp only [List.cons_append, List.cons.injEq] at h
        exact ⟨h.1, r, h.2⟩

theorem startsL_app (p r : Str) : startsL (p ++ r) p = true :=
  (startsL_iff _ _).mpr ⟨r, rfl⟩

theorem endsC_concat (X : Str) (c : Char) : endsC (X ++ [c]) c = true := by
  simp [endsC, List.getLast?_concat]

theorem takeWhile_app_stop (p : Char → Bool) (pre : Str) (hpre : ∀ x ∈ pre, p x = true)
    (c : Char) (hc : p c = false) (rest : Str) :
    (pre ++ c :: rest).takeWhile p = pre := by
  induction pre with
  | nil => simp [List.takeWhile_cons, hc]
  | cons a s ih =>
    simp only [List.cons_append, List.takeWhile_cons, hpre a (by simp), if_true,
      List.cons.injEq, true_and]
    exact ih (fun x hx => hpre x (by simp [hx]))

theorem dropWhile_app_stop (p : Char → Bool) (pre : Str) (hpre : ∀ x ∈ pre, p x = true)
    (c : Char) (hc : p c = false) (rest : Str) :
    (pre ++ c :: rest).dropWhile p = c :: rest := by
  induction pre with
  | nil => simp [List.dropWhile_cons, hc]
  | cons a s ih =>
    simp only [List.cons_append, List.dropWhile_cons, hpre a (by simp), if_true]
    exact ih (fun x hx => hpre x (by simp [hx]))

theorem trimS_wrap (a b : Char) (m : Str) (ha : isWsB a = false) (hb : isWsB b = false) :
    trimS (a :: (m ++ [b])) = a :: (m ++ [b]) := by
  have h1 : (a :: (m ++ [b])).dropWhile isWsB = a :: (m ++ [b]) := by
    simp [List.dropWhile_cons, ha]
  have h2 : (a :: (m ++ [b])).reverse = b :: (m.reverse ++ [a]) := by
    simp
  have h3 : (b :: (m.reverse ++ [a])).dropWhile isWsB = b :: (m.reverse ++ [a]) := by
    simp [List.dropWhile_cons, hb]
  simp only [trimS, h1, h2, h3]
  simp

/-! ### splitWs lemmas -/

theorem swRun_ws (c : Char) (s : Str) (hc : isWsB c = true) :
    swRun (c :: s) = [] :: swRun s := by
  simp [swRun, swAux, hc]

theorem swRun_tok (t : Str) (ht : ∀ x ∈ t, isWsB x = false) (hne : t ≠ [])
    (c : Char) (hc : isWsB c = true) (rest : Str) :
    swRun (t ++ c :: rest) = t :: swRun rest := by
  induction t with
  | nil => simp at hne
  | cons a s ih =>
    cases s with
    | nil =>
      simp [swRun, swAux, hc, ht a (by simp)]
    | cons a2 s2 =>
      have step := ih (fun x hx => ht x (by simp [hx])) (by simp)
      have : swRun ((a :: a2 :: s2) ++ c :: rest) = swAux a (swRun ((a2 :: s2) ++ c :: rest)) := by
        simp [swRun]
      rw [this, step]
      simp [swAux, ht a (by simp)]

theorem swRun_tok_nil (t : Str) (ht : ∀ x ∈ t, isWsB x = false) (hne : t ≠ []) :
    swRun t = [t] := by
  induction t with
  | nil => simp at hne
  | cons a s ih =>
    cases s with
    | nil => simp [swRun, swAux, ht a (by simp)]
    | cons a2 s2 =>
      have step := ih (fun x hx => ht x (by simp [hx])) (by simp)
      have : swRun (a :: a2 :: s2) = swAux a (swRun (a2 :: s2)) := by simp [swRun]
      rw [this, step]
      simp [swAux, ht a (by simp)]

theorem splitWs_nil : splitWs [] = [] := rfl

theorem splitWs_ws (c : Char) (s : Str) (hc : isWsB c = true) :
    splitWs (c :: s) = splitWs s := by
  simp [splitWs, swRun_ws c s hc]

theorem splitWs_tok (t : Str) (ht : ∀ x ∈ t, isWsB x = false) (hne : t ≠ [])
    (c : Char) (hc : isWsB c = true) (rest : Str) :
    splitWs (t ++ c :: rest) = t :: splitWs rest := by
  simp [splitWs, swRun_tok t ht hne c hc rest, hne]

theorem splitWs_tok_nil (t : Str) (ht : ∀ x ∈ t, isWsB x = false) (hne : t ≠ []) :
    splitWs t = [t] := by
  simp [splitWs, swRun_tok_nil t ht hne, hne]

/-! ### commaToSpace lemmas -/

theorem commaToSpace_app (a b : Str) :
    commaToSpace (a ++ b) = commaToSpace a ++ commaToSpace b := by
  simp [commaToSpace]

theorem commaToSpace_of_not_mem (s : Str) (h : ',' ∉ s) : commaToSpace s = s := by
  induction s with
  | nil => rfl
  | cons a t ih =>
    have ha : a ≠ ',' := by rintro rfl; exact h (by simp)
    simp only [commaToSpace, List.map_cons, if_neg ha]
    exact congrArg _ (ih (fun hm => h (by simp [hm])))

theorem commaToSpace_comma (s : Str) : commaToSpace (',' :: s) = ' ' :: commaToSpace s := by
  simp [commaToSpace]

/-! ### content extraction lemmas -/

theorem firstIdx_pre (pre rest : Str) (h : '(' ∉ pre) :
    firstIdx (pre ++ '(' :: rest) '(' = some pre.length := by
  have hm : '(' ∈ pre ++ '(' :: rest := by simp
  have htw : List.takeWhile (fun x => decide (x ≠ '(')) (pre ++ '(' :: rest) = pre := by
    refine takeWhile_app_stop _ pre (fun x hx => ?_) '(' (by simp) rest
    simp only [ne_eq, decide_eq_true_eq]
    rintro rfl; exact h hx
  unfold firstIdx
  rw [if_pos hm, htw]

theorem lastIdx_concat (X : Str) : lastIdx (X ++ [')']) ')' = some X.length := by
  have hm : ')' ∈ X ++ [')'] := by simp
  have hr : (X ++ [')']).reverse = ')' :: X.reverse := by simp
  simp [lastIdx, hm, hr, List.takeWhile_cons]

/-! ### Reduction of the functional parsers to their cores -/

theorem drop_pre_paren (pre c : Str) :
    (pre ++ '(' :: (c ++ [')'])).drop (pre.length + 1) = c ++ [')'] := by
  have e : pre ++ '(' :: (c ++ [')']) = (pre ++ ['(']) ++ (c ++ [')']) := by simp
  have e2 : pre.length + 1 = (pre ++ ['(']).length := by simp
  rw [e, e2, List.drop_left]

theorem parseRgb_paren (pre c : Str) (hpre : '(' ∉ pre) (hc : ')' ∉ c) :
    parseRgb (pre ++ '(' :: (c ++ [')'])) = rgbCore c := by
  have h1 : firstIdx (pre ++ '(' :: (c ++ [')'])) '(' = some pre.length :=
    firstIdx_pre _ _ hpre
  have e2 : pre ++ '(' :: (c ++ [')']) = (pre ++ '(' :: c) ++ [')'] := by simp
  have h2 : lastIdx (pre ++ '(' :: (c ++ [')'])) ')' = some (pre.length + (c.length + 1)) := by
    rw [e2, lastIdx_concat]; simp
  have h4 : pre.length + (c.length + 1) - (pre.length + 1) = c.length := by omega
  unfold parseRgb
  rw [h1, h2]
  dsimp only
  rw [if_neg (by omega), drop_pre_paren, h4, List.take_left]

theorem parseHsl_paren (pre c : Str) (hpre : '(' ∉ pre) (hc : ')' ∉ c) :
    parseHsl (pre ++ '(' :: (c ++ [')'])) = hslCore c := by
  have h1 : firstIdx (pre ++ '(' :: (c ++ [')'])) '(' = some pre.length :=
    firstIdx_pre _ _ hpre
  have e2 : pre ++ '(' :: (c ++ [')']) = (pre ++ '(' :: c) ++ [')'] := by simp
  have h2 : lastIdx (pre ++ '(' :: (c ++ [')'])) ')' = some (pre.length + (c.length + 1)) := by
    rw [e2, lastIdx_concat]; simp
  have h4 : pre.length + (c.length + 1) - (pre.length + 1) = c.length := by omega
  unfold parseHsl
  rw [h1, h2]
  dsimp only
  rw [if_neg (by omega), drop_pre_paren, h4, List.take_left]

theorem parseColor_rgbp (c : Str) (hc : ')' ∉ c) :
    parseColor ("rgb(".toList ++ c ++ [')']) = rgbCore c := by
  have e1 : "rgb(".toList ++ c ++ [')'] = 'r' :: ((['g', 'b', '('] ++ c) ++ [')']) := by simp
  have etrim : trimS ("rgb(".toList ++ c ++ [')']) = "rgb(".toList ++ c ++ [')'] := by
    rw [e1]; exact trimS_wrap 'r' ')' (['g', 'b', '('] ++ c) (by decide) (by decide)
  have hstart : startsL ("rgb(".toList ++ c ++ [')']) "rgb(".toList = true := by
    have : "rgb(".toList ++ c ++ [')'] = "rgb(".toList ++ (c ++ [')']) := by simp
    rw [this]; exact startsL_app _ _
  have hend : endsC ("rgb(".toList ++ c ++ [')']) ')' = true := endsC_concat _ _
  have hne : "rgb(".toList ++ c ++ [')'] ≠ [] := by rw [e1]; simp
  simp only [parseColor, etrim, if_neg hne, hstart, hend]
  rw [if_neg (by rw [e1]; simp [startsL])]
  rw [if_pos (by simp)]
  have e3 : "rgb(".toList ++ c ++ [')'] = ['r', 'g', 'b'] ++ '(' :: (c ++ [')']) := by simp
  rw [e3, parseRgb_paren _ _ (by decide) hc]

theorem parseColor_rgbap (c : Str) (hc : ')' ∉ c) :
    parseColor ("rgba(".toList ++ c ++ [')']) = rgbCore c := by
  have e1 : "rgba(".toList ++ c ++ [')'] = 'r' :: ((['g', 'b', 'a', '('] ++ c) ++ [')']) := by
    simp
  have etrim : trimS ("rgba(".toList ++ c ++ [')']) = "rgba(".toList ++ c ++ [')'] := by
    rw [e1]; exact trimS_wrap 'r' ')' (['g', 'b', 'a', '('] ++ c) (by decide) (by decide)
  have hstart : startsL ("rgba(".toList ++ c ++ [')']) "rgba(".toList = true := by
    have : "rgba(".toList ++ c ++ [')'] = "rgba(".toList ++ (c ++ [')']) := by simp
    rw [this]; exact startsL_app _ _
  have hend : endsC ("rgba(".toList ++ c ++ [')']) ')' = true := endsC_concat _ _
  have hne : "rgba(".toList ++ c ++ [')'] ≠ [] := by rw [e1]; simp
  simp only [parseColor, etrim, if_neg hne, hstart, hend]
  rw [if_neg (by rw [e1]; simp [startsL])]
  rw [if_pos (by simp)]
  have e3 : "rgba(".toList ++ c ++ [')'] = ['r', 'g', 'b', 'a'] ++ '(' :: (c ++ [')']) := by simp
  rw [e3, parseRgb_paren _ _ (by decide) hc]

theorem parseColor_hslp (c : Str) (hc : ')' ∉ c) :
    parseColor ("hsl(".toList ++ c ++ [')']) = hslCore c := by
  have e1 : "hsl(".toList ++ c ++ [')'] = 'h' :: ((['s', 'l', '('] ++ c) ++ [')']) := by simp
  have etrim : trimS ("hsl(".toList ++ c ++ [')']) = "hsl(".toList ++ c ++ [')'] := by
    rw [e1]; exact trimS_wrap 'h' ')' (['s', 'l', '('] ++ c) (by decide) (by decide)
  have hstart : startsL ("hsl(".toList ++ c ++ [')']) "hsl(".toList = true := by
    have : "hsl(".toList ++ c ++ [')'] = "hsl(".toList ++ (c ++ [')']) := by simp
    rw [this]; exact startsL_app _ _
  have hend : endsC ("hsl(".toList ++ c ++ [')']) ')' = true := endsC_concat _ _
  have hne : "hsl(".toList ++ c ++ [')'] ≠ [] := by rw [e1]; simp
  simp only [parseColor, etrim, if_neg hne, hstart, hend]
  rw [if_neg (by rw [e1]; simp [startsL])]
  rw [if_neg (by rw [e1]; simp [startsL])]
  rw [if_pos (by simp)]
  have e3 : "hsl(".toList ++ c ++ [')'] = ['h', 's', 'l'] ++ '(' :: (c ++ [')']) := by simp
  rw [e3, parseHsl_paren _ _ (by decide) hc]

theorem parseColor_hslap (c : Str) (hc : ')' ∉ c) :
    parseColor ("hsla(".toList ++ c ++ [')']) = hslCore c := by
  have e1 : "hsla(".toList ++ c ++ [')'] = 'h' :: ((['s', 'l', 'a', '('] ++ c) ++ [')']) := by
    simp
  have etrim : trimS ("hsla(".toList ++ c ++ [')']) = "hsla(".toList ++ c ++ [')'] := by
    rw [e1]; exact trimS_wrap 'h' ')' (['s', 'l', 'a', '('] ++ c) (by decide) (by decide)
  have hstart : startsL ("hsla(".toList ++ c ++ [')']) "hsla(".toList = true := by
    have : "hsla(".toList ++ c ++ [')'] = "hsla(".toList ++ (c ++ [')']) := by simp
    rw [this]; exact startsL_app _ _
  have hend : endsC ("hsla(".toList ++ c ++ [')']) ')' = true := endsC_concat _ _
  have hne : "hsla(".toList ++ c ++ [')'] ≠ [] := by rw [e1]; simp
  simp only [parseColor, etrim, if_neg hne, hstart, hend]
  rw [if_neg (by rw [e1]; simp [startsL])]
  rw [if_neg (by rw [e1]; simp [startsL])]
  rw [if_pos (by simp)]
  have e3 : "hsla(".toList ++ c ++ [')'] = ['h', 's', 'l', 'a'] ++ '(' :: (c ++ [')']) := by simp
  rw [e3, parseHsl_paren _ _ (by decide) hc]

/-! ### Token facts -/

theorem tok_nonws {t : Str} (h : isTok t) : ∀ x ∈ t, isWsB x = false :=
  fun x hx => (h.2 x hx).1

theorem tok_no_comma {t : Str} (h : isTok t) : ',' ∉ t :=
  fun hm => (h.2 ',' hm).2.1 rfl

theorem tok_no_slash {t : Str} (h : isTok t) : '/' ∉ t :=
  fun hm => (h.2 '/' hm).2.2.1 rfl

theorem tok_no_rpar {t : Str} (h : isTok t) : ')' ∉ t :=
  fun hm => (h.2 ')' hm).2.2.2 rfl

/-! ### splitSlash lemmas -/

theorem splitSlash_none (s : Str) (h : '/' ∉ s) : splitSlash s = none := by
  simp [splitSlash, h]

theorem splitSlash_app (a b : Str) (h : '/' ∉ a) : splitSlash (a ++ '/' :: b) = some (a, b) := by
  have hm : '/' ∈ a ++ '/' :: b := by simp
  have htw : List.takeWhile (fun c => decide (c ≠ '/')) (a ++ '/' :: b) = a := by
    refine takeWhile_app_stop _ a (fun x hx => ?_) '/' (by simp) b
    simp only [ne_eq, decide_eq_true_eq]
    rintro rfl; exact h hx
  have hdw : List.dropWhile (fun c => decide (c ≠ '/')) (a ++ '/' :: b) = '/' :: b := by
    refine dropWhile_app_stop _ a (fun x hx => ?_) '/' (by simp) b
    simp only [ne_eq, decide_eq_true_eq]
    rintro rfl; exact h hx
  unfold splitSlash
  rw [if_pos hm, htw, hdw]
  rfl

/-! ### Core content lemmas -/

theorem comma4_split (t1 t2 t3 t4 : Str) (h1 : isTok t1) (h2 : isTok t2) (h3 : isTok t3)
    (h4 : isTok t4) :
    splitWs (commaToSpace (t1 ++ ',' :: (t2 ++ ',' :: (t3 ++ ',' :: t4)))) = [t1, t2, t3, t4] := by
  have e1 : commaToSpace t1 = t1 := commaToSpace_of_not_mem _ (tok_no_comma h1)
  have e2 : commaToSpace t2 = t2 := commaToSpace_of_not_mem _ (tok_no_comma h2)
  have e3 : commaToSpace t3 = t3 := commaToSpace_of_not_mem _ (tok_no_comma h3)
  have e4 : commaToSpace t4 = t4 := commaToSpace_of_not_mem _ (tok_no_comma h4)
  rw [commaToSpace_app, e1, commaToSpace_comma, commaToSpace_app, e2, commaToSpace_comma,
    commaToSpace_app, e3, commaToSpace_comma, e4]
  rw [splitWs_tok t1 (tok_nonws h1) h1.1 ' ' (by decide) _,
    splitWs_tok t2 (tok_nonws h2) h2.1 ' ' (by decide) _,
    splitWs_tok t3 (tok_nonws h3) h3.1 ' ' (by decide) _,
    splitWs_tok_nil t4 (tok_nonws h4) h4.1]

theorem no_slash_comma4 (t1 t2 t3 t4 : Str) (h1 : isTok t1) (h2 : isTok t2) (h3 : isTok t3)
    (h4 : isTok t4) : '/' ∉ t1 ++ ',' :: (t2 ++ ',' :: (t3 ++ ',' :: t4)) := by
  intro hm
  simp only [List.mem_append, List.mem_cons] at hm
  rcases hm with h | h | h | h | h | h | h
  · exact tok_no_slash h1 h
  · cases h
  · exact tok_no_slash h2 h
  · cases h
  · exact tok_no_slash h3 h
  · cases h
  · exact tok_no_slash h4 h

theorem rgbCore_comma4 (t1 t2 t3 t4 : Str) (h1 : isTok t1) (h2 : isTok t2) (h3 : isTok t3)
    (h4 : isTok t4) :
    rgbCore (t1 ++ ',' :: (t2 ++ ',' :: (t3 ++ ',' :: t4))) = rgbTriple t1 t2 t3 := by
  have hcm : ',' ∈ t1 ++ ',' :: (t2 ++ ',' :: (t3 ++ ',' :: t4)) := by simp
  unfold rgbCore
  rw [splitSlash_none _ (no_slash_comma4 t1 t2 t3 t4 h1 h2 h3 h4)]
  dsimp only
  rw [comma4_split t1 t2 t3 t4 h1 h2 h3 h4]
  dsimp only
  rw [if_neg (fun hcon => hcon.2 hcm)]

theorem hslCore_comma4 (t1 t2 t3 t4 : Str) (h1 : isTok t1) (h2 : isTok t2) (h3 : isTok t3)
    (h4 : isTok t4) :
    hslCore (t1 ++ ',' :: (t2 ++ ',' :: (t3 ++ ',' :: t4))) = hslTriple t1 t2 t3 := by
  have hcm : ',' ∈ t1 ++ ',' :: (t2 ++ ',' :: (t3 ++ ',' :: t4)) := by simp
  unfold hslCore
  rw [splitSlash_none _ (no_slash_comma4 t1 t2 t3 t4 h1 h2 h3 h4)]
  dsimp only
  rw [comma4_split t1 t2 t3 t4 h1 h2 h3 h4]
  dsimp only
  rw [if_neg (fun hcon => hcon.2 hcm)]

theorem slash3_colorstr (t1 t2 t3 : Str) (h1 : isTok t1) (h2 : isTok t2) (h3 : isTok t3) :
    splitWs (commaToSpace (t1 ++ ' ' :: (t2 ++ ' ' :: (t3 ++ [' '])))) = [t1, t2, t3] := by
  have hnc : ',' ∉ t1 ++ ' ' :: (t2 ++ ' ' :: (t3 ++ [' '])) := by
    intro hm
    simp only [List.mem_append, List.mem_cons] at hm
    rcases hm with h | h | h | h | h | h
    · exact tok_no_comma h1 h
    · cases h
    · exact tok_no_comma h2 h
    · cases h
    · exact tok_no_comma h3 h
    · simp at h
  rw [commaToSpace_of_not_mem _ hnc]
  have e3 : t3 ++ [' '] = t3 ++ ' ' :: ([] : Str) := rfl
  rw [e3, splitWs_tok t1 (tok_nonws h1) h1.1 ' ' (by decide) _,
    splitWs_tok t2 (tok_nonws h2) h2.1 ' ' (by decide) _,
    splitWs_tok t3 (tok_nonws h3) h3.1 ' ' (by decide) _]
  rfl

theorem slash3_content (t1 t2 t3 a : Str) (h1 : isTok t1) (h2 : isTok t2) (h3 : isTok t3)
    (ha : '/' ∉ a) :
    splitSlash (t1 ++ ' ' :: (t2 ++ ' ' :: (t3 ++ ' ' :: '/' :: ' ' :: a))) =
      some (t1 ++ ' ' :: (t2 ++ ' ' :: (t3 ++ [' '])), ' ' :: a) := by
  have e : t1 ++ ' ' :: (t2 ++ ' ' :: (t3 ++ ' ' :: '/' :: ' ' :: a)) =
      (t1 ++ ' ' :: (t2 ++ ' ' :: (t3 ++ [' ']))) ++ '/' :: (' ' :: a) := by simp
  have hns : '/' ∉ t1 ++ ' ' :: (t2 ++ ' ' :: (t3 ++ [' '])) := by
    intro hm
    simp only [List.mem_append, List.mem_cons] at hm
    rcases hm with h | h | h | h | h | h
    · exact tok_no_slash h1 h
    · cases h
    · exact tok_no_slash h2 h
    · cases h
    · exact tok_no_slash h3 h
    · simp at h
  rw [e, splitSlash_app _ _ hns]

theorem rgbCore_slash3 (t1 t2 t3 a : Str) (h1 : isTok t1) (h2 : isTok t2) (h3 : isTok t3)
    (ha : '/' ∉ a) :
    rgbCore (t1 ++ ' ' :: (t2 ++ ' ' :: (t3 ++ ' ' :: '/' :: ' ' :: a))) = rgbTriple t1 t2 t3 := by
  unfold rgbCore
  rw [slash3_content t1 t2 t3 a h1 h2 h3 ha]
  dsimp only
  rw [slash3_colorstr t1 t2 t3 h1 h2 h3]

theorem hslCore_slash3 (t1 t2 t3 a : Str) (h1 : isTok t1) (h2 : isTok t2) (h3 : isTok t3)
    (ha : '/' ∉ a) :
    hslCore (t1 ++ ' ' :: (t2 ++ ' ' :: (t3 ++ ' ' :: '/' :: ' ' :: a))) = hslTriple t1 t2 t3 := by
  unfold hslCore
  rw [slash3_content t1 t2 t3 a h1 h2 h3 ha]
  dsimp only
  rw [slash3_colorstr t1 t2 t3 h1 h2 h3]

theorem rgbCore_space4 (c : Str) (hs : '/' ∉ c) (hcm : ',' ∉ c)
    (hlen : (splitWs c).length = 4) : rgbCore c = .err .invalidRgbFormat := by
  unfold rgbCore
  rw [splitSlash_none _ hs]
  dsimp only
  rw [commaToSpace_of_not_mem _ hcm]
  have h4 : ∃ p0 p1 p2 p3, splitWs c = [p0, p1, p2, p3] := by
    generalize splitWs c = L at hlen
    rcases L with _ | ⟨a, _ | ⟨b, _ | ⟨d, _ | ⟨e, _ | ⟨f, tl⟩⟩⟩⟩⟩ <;> simp_all
  obtain ⟨p0, p1, p2, p3, hp⟩ := h4
  rw [hp]
  dsimp only
  rw [if_pos ⟨(by simp), hcm⟩]

theorem hslCore_space4 (c : Str) (hs : '/' ∉ c) (hcm : ',' ∉ c)
    (hlen : (splitWs c).length = 4) : hslCore c = .err .invalidHslFormat := by
  unfold hslCore
  rw [splitSlash_none _ hs]
  dsimp only
  rw [commaToSpace_of_not_mem _ hcm]
  have h4 : ∃ p0 p1 p2 p3, splitWs c = [p0, p1, p2, p3] := by
    generalize splitWs c = L at hlen
    rcases L with _ | ⟨a, _ | ⟨b, _ | ⟨d, _ | ⟨e, _ | ⟨f, tl⟩⟩⟩⟩⟩ <;> simp_all
  obtain ⟨p0, p1, p2, p3, hp⟩ := h4
  rw [hp]
  dsimp only
  rw [if_pos ⟨(by simp), hcm⟩]

/-! ### Hex-path lemmas -/

theorem charLe_toNat {a b : Char} (h : a ≤ b) : a.toNat ≤ b.toNat := h

theorem utf8Len_all1 (s : Str) (h : ∀ x ∈ s, x.utf8Size = 1) : utf8Len s = s.length := by
  induction s with
  | nil => rfl
  | cons a t ih =>
    simp only [utf8Len, List.map_cons, List.sum_cons, h a (by simp), List.length_cons]
    have hih := ih (fun x hx => h x (by simp [hx]))
    simp only [utf8Len] at hih
    rw [hih]
    omega

theorem dropBytes_zero (s : Str) : dropBytes s 0 = some s := by
  cases s <;> rfl

theorem dropBytes_unit (x : Char) (hx : x.utf8Size = 1) (rest : Str) (n : Nat) :
    dropBytes (x :: rest) (n + 1) = dropBytes rest n := by
  simp [dropBytes, hx]

theorem takeBytes_unit1 (x : Char) (hx : x.utf8Size = 1) (rest : Str) :
    takeBytes (x :: rest) 1 = some [x] := by
  simp [takeBytes, hx]

theorem takeBytes_unit2 (x y : Char) (hx : x.utf8Size = 1) (hy : y.utf8Size = 1) (rest : Str) :
    takeBytes (x :: y :: rest) 2 = some [x, y] := by
  have h1 : takeBytes (y :: rest) 1 = some [y] := takeBytes_unit1 y hy rest
  simp [takeBytes, hx, hy]

theorem hexDigit_ne (c : Char) (v : Nat) (h : hexDigitVal c = some v) (d : Char)
    (hd : hexDigitVal d = none) : c ≠ d := by
  rintro rfl; rw [hd] at h; cases h

theorem hexDigit_not_ws (c : Char) (v : Nat) (h : hexDigitVal c = some v) : isWsB c = false := by
  have h1 : c ≠ ' ' := hexDigit_ne c v h ' ' (by decide)
  have h2 : c ≠ '\t' := hexDigit_ne c v h '\t' (by decide)
  have h3 : c ≠ '\n' := hexDigit_ne c v h '\n' (by decide)
  have h4 : c ≠ '\r' := hexDigit_ne c v h '\r' (by decide)
  have h5 : c ≠ '\x0b' := hexDigit_ne c v h '\x0b' (by decide)
  have h6 : c ≠ '\x0c' := hexDigit_ne c v h '\x0c' (by decide)
  simp [isWsB, h1, h2, h3, h4, h5, h6]

theorem utf8Size_of_ascii (c : Char) (h : c.toNat ≤ 127) : c.utf8Size = 1 := by
  unfold Char.utf8Size
  dsimp only
  split
  · rfl
  · rename_i hcon
    exfalso
    apply hcon
    show c.val.val ≤ _
    exact h

theorem hexDigit_size (c : Char) (v : Nat) (h : hexDigitVal c = some v) : c.utf8Size = 1 := by
  have e9 : ('9' : Char).toNat = 57 := by decide
  have ef : ('f' : Char).toNat = 102 := by decide
  have eF : ('F' : Char).toNat = 70 := by decide
  unfold hexDigitVal at h
  split at h
  · rename_i hr
    have := charLe_toNat hr.2
    exact utf8Size_of_ascii c (by omega)
  · split at h
    · rename_i hr
      have := charLe_toNat hr.2
      exact utf8Size_of_ascii c (by omega)
    · split at h
      · rename_i hr
        have := charLe_toNat hr.2
        exact utf8Size_of_ascii c (by omega)
      · cases h

theorem hexDigit_le15 (c : Char) (v : Nat) (h : hexDigitVal c = some v) : v ≤ 15 := by
  have e9 : ('9' : Char).toNat = 57 := by decide
  have ef : ('f' : Char).toNat = 102 := by decide
  have eF : ('F' : Char).toNat = 70 := by decide
  unfold hexDigitVal at h
  split at h
  · rename_i hr
    have := charLe_toNat hr.2
    injection h with h; omega
  · split at h
    · rename_i hr
      have := charLe_toNat hr.2
      injection h with h; omega
    · split at h
      · rename_i hr
        have := charLe_toNat hr.2
        injection h with h; omega
      · cases h

theorem fromStrRadix_pair (x y : Char) (a b : Nat) (hx : hexDigitVal x = some a)
    (hy : hexDigitVal y = some b) :
    fromStrRadix16U8 [x, y] = some (16 * a + b) := by
  have ha := hexDigit_le15 x a hx
  have hb := hexDigit_le15 y b hy
  have hxp : x ≠ '+' := hexDigit_ne x a hx '+' (by decide)
  have hsp : stripPlus [x, y] = x :: [y] := by simp [stripPlus, hxp]
  have hval : hexValAux [x, y] 0 = some (16 * a + b) := by
    simp [hexValAux, hx, hy]
  unfold fromStrRadix16U8
  rw [hsp]
  dsimp only
  rw [hval]
  dsimp only
  rw [if_pos (by omega)]

theorem hexShort_eval (c1 c2 c3 : Char) (ex : Str) (v1 v2 v3 : Nat)
    (h1 : hexDigitVal c1 = some v1) (h2 : hexDigitVal c2 = some v2)
    (h3 : hexDigitVal c3 = some v3) :
    hexShort ([c1, c2, c3] ++ ex) = .ok ⟨17 * v1, 17 * v2, 17 * v3⟩ := by
  have s1 := hexDigit_size c1 v1 h1
  have s2 := hexDigit_size c2 v2 h2
  have s3 := hexDigit_size c3 v3 h3
  have b1 := hexDigit_le15 c1 v1 h1
  have b2 := hexDigit_le15 c2 v2 h2
  have b3 := hexDigit_le15 c3 v3 h3
  have e1 : sliceB (c1 :: c2 :: c3 :: ex) 0 1 = some [c1] := by
    simp only [sliceB, dropBytes_zero]
    exact takeBytes_unit1 c1 s1 _
  have e2 : sliceB (c1 :: c2 :: c3 :: ex) 1 2 = some [c2] := by
    simp only [sliceB, dropBytes_unit c1 s1 _ 0, dropBytes_zero]
    exact takeBytes_unit1 c2 s2 _
  have e3 : sliceB (c1 :: c2 :: c3 :: ex) 2 3 = some [c3] := by
    simp only [sliceB, dropBytes_unit c1 s1 _ 1, dropBytes_unit c2 s2 _ 0, dropBytes_zero]
    exact takeBytes_unit1 c3 s3 _
  have f1 : fromStrRadix16U8 ([c1] ++ [c1]) = some (17 * v1) := by
    have := fromStrRadix_pair c1 c1 v1 v1 h1 h1
    simpa [(by omega : 16 * v1 + v1 = 17 * v1)] using this
  have f2 : fromStrRadix16U8 ([c2] ++ [c2]) = some (17 * v2) := by
    have := fromStrRadix_pair c2 c2 v2 v2 h2 h2
    simpa [(by omega : 16 * v2 + v2 = 17 * v2)] using this
  have f3 : fromStrRadix16U8 ([c3] ++ [c3]) = some (17 * v3) := by
    have := fromStrRadix_pair c3 c3 v3 v3 h3 h3
    simpa [(by omega : 16 * v3 + v3 = 17 * v3)] using this
  show hexShort (c1 :: c2 :: c3 :: ex) = _
  unfold hexShort
  rw [e1]
  dsimp only
  rw [f1]
  dsimp only
  rw [e2]
  dsimp only
  rw [f2]
  dsimp only
  rw [e3]
  dsimp only
  rw [f3]

theorem hexLong_eval (c1 c2 c3 c4 c5 c6 : Char) (ex : Str) (v1 v2 v3 v4 v5 v6 : Nat)
    (h1 : hexDigitVal c1 = some v1) (h2 : hexDigitVal c2 = some v2)
    (h3 : hexDigitVal c3 = some v3) (h4 : hexDigitVal c4 = some v4)
    (h5 : hexDigitVal c5 = some v5) (h6 : hexDigitVal c6 = some v6) :
    hexLong ([c1, c2, c3, c4, c5, c6] ++ ex) =
      .ok ⟨16 * v1 + v2, 16 * v3 + v4, 16 * v5 + v6⟩ := by
  have s1 := hexDigit_size c1 v1 h1
  have s2 := hexDigit_size c2 v2 h2
  have s3 := hexDigit_size c3 v3 h3
  have s4 := hexDigit_size c4 v4 h4
  have s5 := hexDigit_size c5 v5 h5
  have s6 := hexDigit_size c6 v6 h6
  have e1 : sliceB (c1 :: c2 :: c3 :: c4 :: c5 :: c6 :: ex) 0 2 = some [c1, c2] := by
    simp only [sliceB, dropBytes_zero]
    exact takeBytes_unit2 c1 c2 s1 s2 _
  have e2 : sliceB (c1 :: c2 :: c3 :: c4 :: c5 :: c6 :: ex) 2 4 = some [c3, c4] := by
    simp only [sliceB, dropBytes_unit c1 s1 _ 1, dropBytes_unit c2 s2 _ 0, dropBytes_zero]
    exact takeBytes_unit2 c3 c4 s3 s4 _
  have e3 : sliceB (c1 :: c2 :: c3 :: c4 :: c5 :: c6 :: ex) 4 6 = some [c5, c6] := by
    simp only [sliceB, dropBytes_unit c1 s1 _ 3, dropBytes_unit c2 s2 _ 2,
      dropBytes_unit c3 s3 _ 1, dropBytes_unit c4 s4 _ 0, dropBytes_zero]
    exact takeBytes_unit2 c5 c6 s5 s6 _
  show hexLong (c1 :: c2 :: c3 :: c4 :: c5 :: c6 :: ex) = _
  unfold hexLong
  rw [e1]
  dsimp only
  rw [fromStrRadix_pair c1 c2 v1 v2 h1 h2]
  dsimp only
  rw [e2]
  dsimp only
  rw [fromStrRadix_pair c3 c4 v3 v4 h3 h4]
  dsimp only
  rw [e3]
  dsimp only
  rw [fromStrRadix_pair c5 c6 v5 v6 h5 h6]

theorem parseColor_hash (m : Str) (b : Char) (hb : isWsB b = false) :
    parseColor ('#' :: (m ++ [b])) = parseHex ('#' :: (m ++ [b])) := by
  have etrim := trimS_wrap '#' b m (by decide) hb
  simp only [parseColor, etrim]
  rw [if_neg (by simp), if_pos (by simp [startsL])]

theorem dChar_facts (d : Nat) (u : Bool) (hd : d ≤ 15) :
    hexDigitVal (dChar d u) = some d ∧ (dChar d u).utf8Size = 1 ∧ isWsB (dChar d u) = false := by
  cases u <;> interval_cases d <;> exact ⟨by decide, by decide, by decide⟩

/-! ### Bounds of every successful parse -/

theorem u8ofZ_le (z : ℤ) : u8ofZ z ≤ 255 := by
  unfold u8ofZ
  split
  · omega
  · split
    · omega
    · omega

theorem asU8_le (x : ℚ) : asU8 x ≤ 255 := by
  unfold asU8
  split
  · omega
  · split
    · omega
    · rename_i h1 h2
      have hfl : ⌊x⌋ ≤ 255 := by
        have hx : x ≤ 255 := not_lt.mp h2
        have : ⌊x⌋ ≤ ⌊(255 : ℚ)⌋ := Int.floor_le_floor hx
        simpa using this
      omega

theorem parseU8_le (s : Str) (n : Nat) (h : parseU8 s = some n) : n ≤ 255 := by
  unfold parseU8 at h
  split at h
  · cases h
  · split at h
    · split at h
      · injection h with h; omega
      · cases h
    · cases h

theorem fromStrRadix_le (s : Str) (n : Nat) (h : fromStrRadix16U8 s = some n) : n ≤ 255 := by
  unfold fromStrRadix16U8 at h
  split at h
  · cases h
  · split at h
    · split at h
      · injection h with h; omega
      · cases h
    · cases h

theorem parseRgbComponent_le (p : Str) (n : Nat) (h : parseRgbComponent p = .ok n) :
    n ≤ 255 := by
  unfold parseRgbComponent at h
  dsimp only at h
  split at h
  · split at h
    · exact PRes.noConfusion h
    · split at h
      · injection h with h; subst h; exact u8ofZ_le _
      · exact PRes.noConfusion h
  · split at h
    · rename_i m heq
      injection h with h; subst h; exact parseU8_le _ _ heq
    · exact PRes.noConfusion h

theorem rgbTriple_ok_inv (p0 p1 p2 : Str) (c : Color) (h : rgbTriple p0 p1 p2 = .ok c) :
    ∃ v0 v1 v2, parseRgbComponent p0 = .ok v0 ∧ parseRgbComponent p1 = .ok v1 ∧
      parseRgbComponent p2 = .ok v2 ∧ c = ⟨v0, v1, v2⟩ := by
  unfold rgbTriple at h
  split at h
  · exact PRes.noConfusion h
  · exact PRes.noConfusion h
  · rename_i v0 heq0
    split at h
    · exact PRes.noConfusion h
    · exact PRes.noConfusion h
    · rename_i v1 heq1
      split at h
      · exact PRes.noConfusion h
      · exact PRes.noConfusion h
      · rename_i v2 heq2
        injection h with h
        exact ⟨v0, v1, v2, heq0, heq1, heq2, h.symm⟩

theorem rgbTriple_ok (p0 p1 p2 : Str) (v0 v1 v2 : Nat) (h0 : parseRgbComponent p0 = .ok v0)
    (h1 : parseRgbComponent p1 = .ok v1) (h2 : parseRgbComponent p2 = .ok v2) :
    rgbTriple p0 p1 p2 = .ok ⟨v0, v1, v2⟩ := by
  unfold rgbTriple
  rw [h0]
  dsimp only
  rw [h1]
  dsimp only
  rw [h2]

theorem rgbTriple_le (p0 p1 p2 : Str) (c : Color) (h : rgbTriple p0 p1 p2 = .ok c) :
    c.r ≤ 255 ∧ c.g ≤ 255 ∧ c.b ≤ 255 := by
  obtain ⟨v0, v1, v2, h0, h1, h2, hc⟩ := rgbTriple_ok_inv p0 p1 p2 c h
  subst hc
  exact ⟨parseRgbComponent_le _ _ h0, parseRgbComponent_le _ _ h1, parseRgbComponent_le _ _ h2⟩

theorem hslToRgb_le (h s l : ℚ) :
    (hslToRgb h s l).r ≤ 255 ∧ (hslToRgb h s l).g ≤ 255 ∧ (hslToRgb h s l).b ≤ 255 := by
  unfold hslToRgb
  split
  · exact ⟨asU8_le _, asU8_le _, asU8_le _⟩
  · exact ⟨asU8_le _, asU8_le _, asU8_le _⟩

theorem hslTriple_le (p0 p1 p2 : Str) (c : Color) (h : hslTriple p0 p1 p2 = .ok c) :
    c.r ≤ 255 ∧ c.g ≤ 255 ∧ c.b ≤ 255 := by
  unfold hslTriple at h
  split at h
  · exact PRes.noConfusion h
  · split at h
    · exact PRes.noConfusion h
    · split at h
      · exact PRes.noConfusion h
      · split at h
        · exact PRes.noConfusion h
        · split at h
          · exact PRes.noConfusion h
          · split at h
            · exact PRes.noConfusion h
            · injection h with h
              subst h
              exact hslToRgb_le _ _ _

theorem rgbCore_le (content : Str) (c : Color) (h : rgbCore content = .ok c) :
    c.r ≤ 255 ∧ c.g ≤ 255 ∧ c.b ≤ 255 := by
  unfold rgbCore at h
  dsimp only at h
  split at h
  · exact rgbTriple_le _ _ _ _ h
  · split at h
    · exact PRes.noConfusion h
    · exact rgbTriple_le _ _ _ _ h
  · exact PRes.noConfusion h

theorem hslCore_le (content : Str) (c : Color) (h : hslCore content = .ok c) :
    c.r ≤ 255 ∧ c.g ≤ 255 ∧ c.b ≤ 255 := by
  unfold hslCore at h
  dsimp only at h
  split at h
  · exact hslTriple_le _ _ _ _ h
  · split at h
    · exact PRes.noConfusion h
    · exact hslTriple_le _ _ _ _ h
  · exact PRes.noConfusion h

theorem parseRgb_le (input : Str) (c : Color) (h : parseRgb input = .ok c) :
    c.r ≤ 255 ∧ c.g ≤ 255 ∧ c.b ≤ 255 := by
  unfold parseRgb at h
  split at h
  · exact PRes.noConfusion h
  · split at h
    · exact PRes.noConfusion h
    · split at h
      · exact PRes.noConfusion h
      · exact rgbCore_le _ _ h

theorem parseHsl_le (input : Str) (c : Color) (h : parseHsl input = .ok c) :
    c.r ≤ 255 ∧ c.g ≤ 255 ∧ c.b ≤ 255 := by
  unfold parseHsl at h
  split at h
  · exact PRes.noConfusion h
  · split at h
    · exact PRes.noConfusion h
    · split at h
      · exact PRes.noConfusion h
      · exact hslCore_le _ _ h

theorem hexShort_le (hex : Str) (c : Color) (h : hexShort hex = .ok c) :
    c.r ≤ 255 ∧ c.g ≤ 255 ∧ c.b ≤ 255 := by
  unfold hexShort at h
  split at h
  · exact PRes.noConfusion h
  · split at h
    · exact PRes.noConfusion h
    · rename_i r heqr
      split at h
      · exact PRes.noConfusion h
      · split at h
        · exact PRes.noConfusion h
        · rename_i g heqg
          split at h
          · exact PRes.noConfusion h
          · split at h
            · exact PRes.noConfusion h
            · rename_i b heqb
              injection h with h
              subst h
              exact ⟨fromStrRadix_le _ _ heqr, fromStrRadix_le _ _ heqg,
                fromStrRadix_le _ _ heqb⟩

theorem hexLong_le (hex : Str) (c : Color) (h : hexLong hex = .ok c) :
    c.r ≤ 255 ∧ c.g ≤ 255 ∧ c.b ≤ 255 := by
  unfold hexLong at h
  split at h
  · exact PRes.noConfusion h
  · split at h
    · exact PRes.noConfusion h
    · rename_i r heqr
      split at h
      · exact PRes.noConfusion h
      · split at h
        · exact PRes.noConfusion h
        · rename_i g heqg
          split at h
          · exact PRes.noConfusion h
          · split at h
            · exact PRes.noConfusion h
            · rename_i b heqb
              injection h with h
              subst h
              exact ⟨fromStrRadix_le _ _ heqr, fromStrRadix_le _ _ heqg,
                fromStrRadix_le _ _ heqb⟩

theorem parseHex_le (input : Str) (c : Color) (h : parseHex input = .ok c) :
    c.r ≤ 255 ∧ c.g ≤ 255 ∧ c.b ≤ 255 := by
  unfold parseHex at h
  dsimp only at h
  split at h
  · exact hexShort_le _ _ h
  · exact hexShort_le _ _ h
  · exact hexLong_le _ _ h
  · exact hexLong_le _ _ h
  · exact PRes.noConfusion h

theorem parseNamed_le (input : Str) (c : Color) (h : parseNamed input = .ok c) :
    c.r ≤ 255 ∧ c.g ≤ 255 ∧ c.b ≤ 255 := by
  unfold parseNamed at h
  split at h
  · rename_i pr heq
    injection h with h
    subst h
    have hmem : pr ∈ namedTable := List.mem_of_find?_eq_some heq
    have hall : ∀ q ∈ namedTable, q.2.r ≤ 255 ∧ q.2.g ≤ 255 ∧ q.2.b ≤ 255 := by decide
    exact hall pr hmem
  · exact PRes.noConfusion h

theorem parseColor_le (input : Str) (c : Color) (h : parseColor input = .ok c) :
    c.r ≤ 255 ∧ c.g ≤ 255 ∧ c.b ≤ 255 := by
  unfold parseColor at h
  dsimp only at h
  split at h
  · exact PRes.noConfusion h
  · split at h
    · exact parseHex_le _ _ h
    · split at h
      · exact parseRgb_le _ _ h
      · split at h
        · exact parseHsl_le _ _ h
        · exact parseNamed_le _ _ h

theorem hexRender_parses (r g b : Nat) (hr : r ≤ 255) (hg : g ≤ 255) (hb : b ≤ 255)
    (u : Fin 6 → Bool) : parseColor (hexRender6 r g b u) = .ok ⟨r, g, b⟩ := by
  obtain ⟨q1, z1, w1⟩ := dChar_facts (r / 16) (u 0) (by omega)
  obtain ⟨q2, z2, w2⟩ := dChar_facts (r % 16) (u 1) (by omega)
  obtain ⟨q3, z3, w3⟩ := dChar_facts (g / 16) (u 2) (by omega)
  obtain ⟨q4, z4, w4⟩ := dChar_facts (g % 16) (u 3) (by omega)
  obtain ⟨q5, z5, w5⟩ := dChar_facts (b / 16) (u 4) (by omega)
  obtain ⟨q6, z6, w6⟩ := dChar_facts (b % 16) (u 5) (by omega)
  have eshape : hexRender6 r g b u =
      '#' :: ([dChar (r / 16) (u 0), dChar (r % 16) (u 1), dChar (g / 16) (u 2),
        dChar (g % 16) (u 3), dChar (b / 16) (u 4)] ++ [dChar (b % 16) (u 5)]) := by
    simp [hexRender6]
  rw [eshape, parseColor_hash _ _ w6]
  unfold parseHex
  dsimp only
  have hlen : utf8Len [dChar (r / 16) (u 0), dChar (r % 16) (u 1), dChar (g / 16) (u 2),
      dChar (g % 16) (u 3), dChar (b / 16) (u 4), dChar (b % 16) (u 5)] = 6 := by
    rw [utf8Len_all1]
    · rfl
    · intro x hx
      simp only [List.mem_cons, List.not_mem_nil, or_false] at hx
      rcases hx with rfl | rfl | rfl | rfl | rfl | rfl
      · exact z1
      · exact z2
      · exact z3
      · exact z4
      · exact z5
      · exact z6
  have edrop : List.drop 1 ('#' :: ([dChar (r / 16) (u 0), dChar (r % 16) (u 1),
      dChar (g / 16) (u 2), dChar (g % 16) (u 3), dChar (b / 16) (u 4)] ++
      [dChar (b % 16) (u 5)])) =
      [dChar (r / 16) (u 0), dChar (r % 16) (u 1), dChar (g / 16) (u 2),
        dChar (g % 16) (u 3), dChar (b / 16) (u 4), dChar (b % 16) (u 5)] := by
    simp
  rw [edrop, hlen]
  dsimp only
  have heval := hexLong_eval (dChar (r / 16) (u 0)) (dChar (r % 16) (u 1))
    (dChar (g / 16) (u 2)) (dChar (g % 16) (u 3)) (dChar (b / 16) (u 4))
    (dChar (b % 16) (u 5)) [] _ _ _ _ _ _ q1 q2 q3 q4 q5 q6
  simp only [List.append_nil] at heval
  rw [heval]
  have er : 16 * (r / 16) + r % 16 = r := by omega
  have eg : 16 * (g / 16) + g % 16 = g := by omega
  have eb : 16 * (b / 16) + b % 16 = b := by omega
  rw [er, eg, eb]

/-- Claim C1: for every byte triple `r, g, b`, parsing the canonical 6-digit
hex string `#RRGGBB` (each digit in either letter case) returns exactly
`Ok(Color(r, g, b))`; consequently re-parsing the canonical lowercase hex
rendering of any successfully parsed `Color` reproduces that `Color`. -/
theorem c1_hex_exact_and_roundtrip :
    (∀ (r g b : Nat), r ≤ 255 → g ≤ 255 → b ≤ 255 → ∀ u : Fin 6 → Bool,
      parseColor (hexRender6 r g b u) = .ok ⟨r, g, b⟩) ∧
    (∀ (s : Str) (c : Color), parseColor s = .ok c →
      parseColor (hexRender6 c.r c.g c.b (fun _ => false)) = .ok c) := by
  constructor
  · exact fun r g b hr hg hb u => hexRender_parses r g b hr hg hb u
  · intro s c h
    obtain ⟨hr, hg, hb⟩ := parseColor_le s c h
    have := hexRender_parses c.r c.g c.b hr hg hb (fun _ => false)
    simpa using this

/-- Witness for C1 at concrete inputs: `#12345C` (mixed case mask on the last
digit) parses to `(18, 52, 92)`, and round-tripping the parse of `"lime"`
through its canonical hex rendering reproduces `(0, 255, 0)`. -/
theorem c1_witness :
    parseColor (hexRender6 18 52 92 (fun i => decide (i = 5))) = .ok ⟨18, 52, 92⟩ ∧
    parseColor (hexRender6 (0 : Nat) 255 0 (fun _ => false)) = .ok ⟨0, 255, 0⟩ := by
  constructor
  · exact c1_hex_exact_and_roundtrip.1 18 52 92 (by decide) (by decide) (by decide) _
  · exact c1_hex_exact_and_roundtrip.2 ("lime".toList) ⟨0, 255, 0⟩ (by decide)

/-- Claim C2: the claim asserts `parse_color` is total (never panics) even on
multi-byte non-ASCII inputs whose post-`#` portion has length 3, 4, 6 or 8.
The code disagrees: on `"#aéé4"` (post-`#` portion: 4 chars, 6 UTF-8 bytes)
the 6-byte arm slices `&hex[0..2]`, whose endpoint splits the first `'é'`,
which is a Rust char-boundary panic. -/
theorem c2_hex_slice_panics : parseColor ("#aéé4".toList) = PRes.crash := by decide

/-! ### Concrete evaluations through the rational arithmetic (the kernel
cannot reduce `ℚ` operations, so these are established by rewriting). -/

theorem hslTriple_gray50 :
    hslTriple ("0".toList) ("0".toList) ("50".toList) = .ok ⟨127, 127, 127⟩ := by
  have hh : parseHueTok ("0".toList) = some 0 := by decide
  have hs : parsePctTok ("0".toList) = some 0 := by decide
  have hl : parsePctTok ("50".toList) = some 50 := by decide
  unfold hslTriple
  rw [hh]
  dsimp only
  rw [hs]
  dsimp only
  rw [hl]
  dsimp only
  rw [if_neg (by norm_num), if_neg (by norm_num), if_neg (by norm_num)]
  have e2 : (0 : ℚ) / 100 = 0 := by norm_num
  rw [e2]
  unfold hslToRgb
  rw [if_pos rfl]
  have e4 : asU8 ((50 : ℚ) / 100 * 255) = 127 := by
    unfold asU8
    rw [if_neg (by norm_num), if_neg (by norm_num)]
    norm_num
    decide
  rw [e4]

theorem parseColor_gray50 : parseColor ("hsl(0, 0, 50)".toList) = .ok ⟨127, 127, 127⟩ := by
  have e : "hsl(0, 0, 50)".toList = "hsl(".toList ++ "0, 0, 50".toList ++ [')'] := by decide
  rw [e, parseColor_hslp _ (by decide)]
  unfold hslCore
  rw [splitSlash_none _ (by decide)]
  dsimp only
  have esp : splitWs (commaToSpace ("0, 0, 50".toList)) =
      ["0".toList, "0".toList, "50".toList] := by decide
  rw [esp]
  dsimp only
  exact hslTriple_gray50

/-- Claim C3 counterexample: the valid achromatic input `hsl(0, 0, 50)` yields
channel value 127 (truncation of 127.5), while the claim's
round-half-away-from-zero of `lightness × 255` is 128. -/
theorem c3_counterexample :
    parseColor ("hsl(0, 0, 50)".toList) = .ok ⟨127, 127, 127⟩ ∧
    ((127 : ℤ) ≠ rRound ((50 : ℚ) / 100 * 255)) := by
  constructor
  · exact parseColor_gray50
  · unfold rRound
    rw [if_pos (by norm_num)]
    norm_num

/-- Claim C3 (amended): for every valid HSL token triple whose saturation
parses to exactly 0, the output is achromatic with each channel equal to the
TRUNCATION (toward zero) of `lightness × 255`, where `lightness` is the
normalized value in `[0, 1]`; in particular `R = G = B`. -/
theorem c3_achromatic_truncates (p0 p1 p2 : Str) (h l : ℚ)
    (hh : parseHueTok p0 = some h) (hs : parsePctTok p1 = some 0)
    (hl : parsePctTok p2 = some l) (hh0 : 0 ≤ h) (hh1 : h ≤ 360)
    (hl0 : 0 ≤ l) (hl1 : l ≤ 100) :
    hslTriple p0 p1 p2 =
      .ok ⟨(⌊l / 100 * 255⌋).toNat, (⌊l / 100 * 255⌋).toNat, (⌊l / 100 * 255⌋).toNat⟩ := by
  unfold hslTriple
  rw [hh]
  dsimp only
  rw [hs]
  dsimp only
  rw [hl]
  dsimp only
  rw [if_neg (fun hc => hc ⟨hh0, hh1⟩)]
  rw [if_neg (by norm_num)]
  rw [if_neg (fun hc => hc ⟨hl0, hl1⟩)]
  have e0 : (0 : ℚ) / 100 = 0 := by norm_num
  rw [e0]
  unfold hslToRgb
  rw [if_pos rfl]
  have hx0 : (0 : ℚ) ≤ l / 100 * 255 := by positivity
  have hx1 : l / 100 * 255 ≤ 255 := by
    rw [div_mul_eq_mul_div]
    rw [div_le_iff (by norm_num : (0 : ℚ) < 100)]
    nlinarith
  unfold asU8
  rw [if_neg (not_lt.mpr hx0), if_neg (not_lt.mpr hx1)]

/-- Witness for the amended C3 at tokens `"0"`, `"0"`, `"50"`. -/
theorem c3_witness :
    hslTriple ("0".toList) ("0".toList) ("50".toList) = .ok ⟨127, 127, 127⟩ := by
  have h := c3_achromatic_truncates ("0".toList) ("0".toList) ("50".toList) 0 50
    (by decide) (by decide) (by decide) (by norm_num) (by norm_num) (by norm_num) (by norm_num)
  have e : ((⌊(50 : ℚ) / 100 * 255⌋).toNat) = 127 := by
    norm_num
    decide
  rw [e] at h
  exact h

/-! ### Further membership lemmas for constructed contents -/

theorem no_rpar_comma4 (t1 t2 t3 t4 : Str) (h1 : isTok t1) (h2 : isTok t2) (h3 : isTok t3)
    (h4 : isTok t4) : ')' ∉ t1 ++ ',' :: (t2 ++ ',' :: (t3 ++ ',' :: t4)) := by
  intro hm
  simp only [List.mem_append, List.mem_cons] at hm
  rcases hm with h | h | h | h | h | h | h
  · exact tok_no_rpar h1 h
  · cases h
  · exact tok_no_rpar h2 h
  · cases h
  · exact tok_no_rpar h3 h
  · cases h
  · exact tok_no_rpar h4 h

theorem no_rpar_slash3 (t1 t2 t3 a : Str) (h1 : isTok t1) (h2 : isTok t2) (h3 : isTok t3)
    (ha : ')' ∉ a) : ')' ∉ t1 ++ ' ' :: (t2 ++ ' ' :: (t3 ++ ' ' :: '/' :: ' ' :: a)) := by
  intro hm
  simp only [List.mem_append, List.mem_cons] at hm
  rcases hm with h | h | h | h | h | h | h | h | h
  · exact tok_no_rpar h1 h
  · cases h
  · exact tok_no_rpar h2 h
  · cases h
  · exact tok_no_rpar h3 h
  · cases h
  · cases h
  · cases h
  · exact ha h

/-- Claim C7 counterexample: a malformed alpha part does NOT cause a parse
error — `rgba(0, 0, 0, banana)` (legacy 4th token) and `#000z` (4-digit hex
with non-hex alpha digit) both succeed. -/
theorem c7_counterexample :
    parseColor ("rgba(0, 0, 0, banana)".toList) = .ok ⟨0, 0, 0⟩ ∧
    parseColor ("#000z".toList) = .ok ⟨0, 0, 0⟩ := by
  exact ⟨by decide, by decide⟩

/-- Claim C7 (amended): wherever an alpha component is syntactically present
(4th digit of a 4-digit hex, trailing two digits of an 8-digit hex, 4th
comma-separated legacy token, segment after `/`), it is structurally consumed
but NEITHER validated NOR retained: given valid color components, arbitrary —
including malformed — alpha content parses successfully to the alpha-free
color. -/
theorem c7_alpha_never_validated :
    (∀ (c1 c2 c3 a : Char) (v1 v2 v3 : Nat), hexDigitVal c1 = some v1 →
      hexDigitVal c2 = some v2 → hexDigitVal c3 = some v3 →
      a.utf8Size = 1 → isWsB a = false →
      parseColor ('#' :: ([c1, c2, c3] ++ [a])) = .ok ⟨17 * v1, 17 * v2, 17 * v3⟩) ∧
    (∀ (c1 c2 c3 c4 c5 c6 a1 a2 : Char) (v1 v2 v3 v4 v5 v6 : Nat),
      hexDigitVal c1 = some v1 → hexDigitVal c2 = some v2 → hexDigitVal c3 = some v3 →
      hexDigitVal c4 = some v4 → hexDigitVal c5 = some v5 → hexDigitVal c6 = some v6 →
      a1.utf8Size = 1 → a2.utf8Size = 1 → isWsB a2 = false →
      parseColor ('#' :: ([c1, c2, c3, c4, c5, c6, a1] ++ [a2])) =
        .ok ⟨16 * v1 + v2, 16 * v3 + v4, 16 * v5 + v6⟩) ∧
    (∀ (t1 t2 t3 t4 : Str) (v1 v2 v3 : Nat), isTok t1 → isTok t2 → isTok t3 → isTok t4 →
      parseRgbComponent t1 = .ok v1 → parseRgbComponent t2 = .ok v2 →
      parseRgbComponent t3 = .ok v3 →
      parseColor ("rgba(".toList ++ (t1 ++ ',' :: (t2 ++ ',' :: (t3 ++ ',' :: t4))) ++ [')']) =
        .ok ⟨v1, v2, v3⟩) ∧
    (∀ (t1 t2 t3 a : Str) (v1 v2 v3 : Nat), isTok t1 → isTok t2 → isTok t3 →
      '/' ∉ a → ')' ∉ a →
      parseRgbComponent t1 = .ok v1 → parseRgbComponent t2 = .ok v2 →
      parseRgbComponent t3 = .ok v3 →
      parseColor ("rgb(".toList ++
          (t1 ++ ' ' :: (t2 ++ ' ' :: (t3 ++ ' ' :: '/' :: ' ' :: a))) ++ [')']) =
        .ok ⟨v1, v2, v3⟩) ∧
    (∀ (t1 t2 t3 t4 : Str) (c : Color), isTok t1 → isTok t2 → isTok t3 → isTok t4 →
      hslTriple t1 t2 t3 = .ok c →
      parseColor ("hsla(".toList ++ (t1 ++ ',' :: (t2 ++ ',' :: (t3 ++ ',' :: t4))) ++ [')']) =
        .ok c) ∧
    (∀ (t1 t2 t3 a : Str) (c : Color), isTok t1 → isTok t2 → isTok t3 →
      '/' ∉ a → ')' ∉ a → hslTriple t1 t2 t3 = .ok c →
      parseColor ("hsl(".toList ++
          (t1 ++ ' ' :: (t2 ++ ' ' :: (t3 ++ ' ' :: '/' :: ' ' :: a))) ++ [')']) = .ok c) := by
  refine ⟨?_, ?_, ?_, ?_, ?_, ?_⟩
  · intro c1 c2 c3 a v1 v2 v3 h1 h2 h3 hsz hws
    rw [parseColor_hash _ _ hws]
    unfold parseHex
    dsimp only
    have hlen : utf8Len [c1, c2, c3, a] = 4 := by
      rw [utf8Len_all1]
      · rfl
      · intro x hx
        simp only [List.mem_cons, List.not_mem_nil, or_false] at hx
        rcases hx with rfl | rfl | rfl | rfl
        · exact hexDigit_size _ _ h1
        · exact hexDigit_size _ _ h2
        · exact hexDigit_size _ _ h3
        · exact hsz
    have edrop : List.drop 1 ('#' :: ([c1, c2, c3] ++ [a])) = [c1, c2, c3, a] := by simp
    rw [edrop, hlen]
    dsimp only
    have := hexShort_eval c1 c2 c3 [a] v1 v2 v3 h1 h2 h3
    simpa using this
  · intro c1 c2 c3 c4 c5 c6 a1 a2 v1 v2 v3 v4 v5 v6 h1 h2 h3 h4 h5 h6 hsz1 hsz2 hws
    rw [parseColor_hash _ _ hws]
    unfold parseHex
    dsimp only
    have hlen : utf8Len [c1, c2, c3, c4, c5, c6, a1, a2] = 8 := by
      rw [utf8Len_all1]
      · rfl
      · intro x hx
        simp only [List.mem_cons, List.not_mem_nil, or_false] at hx
        rcases hx with rfl | rfl | rfl | rfl | rfl | rfl | rfl | rfl
        · exact hexDigit_size _ _ h1
        · exact hexDigit_size _ _ h2
        · exact hexDigit_size _ _ h3
        · exact hexDigit_size _ _ h4
        · exact hexDigit_size _ _ h5
        · exact hexDigit_size _ _ h6
        · exact hsz1
        · exact hsz2
    have edrop : List.drop 1 ('#' :: ([c1, c2, c3, c4, c5, c6, a1] ++ [a2])) =
        [c1, c2, c3, c4, c5, c6, a1, a2] := by simp
    rw [edrop, hlen]
    dsimp only
    have := hexLong_eval c1 c2 c3 c4 c5 c6 [a1, a2] v1 v2 v3 v4 v5 v6 h1 h2 h3 h4 h5 h6
    simpa using this
  · intro t1 t2 t3 t4 v1 v2 v3 h1 h2 h3 h4 hc1 hc2 hc3
    rw [parseColor_rgbap _ (no_rpar_comma4 t1 t2 t3 t4 h1 h2 h3 h4),
      rgbCore_comma4 t1 t2 t3 t4 h1 h2 h3 h4, rgbTriple_ok t1 t2 t3 v1 v2 v3 hc1 hc2 hc3]
  · intro t1 t2 t3 a v1 v2 v3 h1 h2 h3 has harp hc1 hc2 hc3
    rw [parseColor_rgbp _ (no_rpar_slash3 t1 t2 t3 a h1 h2 h3 harp),
      rgbCore_slash3 t1 t2 t3 a h1 h2 h3 has, rgbTriple_ok t1 t2 t3 v1 v2 v3 hc1 hc2 hc3]
  · intro t1 t2 t3 t4 c h1 h2 h3 h4 htr
    rw [parseColor_hslap _ (no_rpar_comma4 t1 t2 t3 t4 h1 h2 h3 h4),
      hslCore_comma4 t1 t2 t3 t4 h1 h2 h3 h4, htr]
  · intro t1 t2 t3 a c h1 h2 h3 has harp htr
    rw [parseColor_hslp _ (no_rpar_slash3 t1 t2 t3 a h1 h2 h3 harp),
      hslCore_slash3 t1 t2 t3 a h1 h2 h3 has, htr]

/-- Witness for the amended C7: junk alpha accepted in all four syntactic
positions. -/
theorem c7_witness :
    parseColor ('#' :: (['0', 'f', '0'] ++ ['z'])) = .ok ⟨0, 255, 0⟩ ∧
    parseColor ('#' :: (['0', '0', 'f', 'f', '0', '0', 'z'] ++ ['!'])) = .ok ⟨0, 255, 0⟩ ∧
    parseColor ("rgba(".toList ++
      ("7".toList ++ ',' :: ("8".toList ++ ',' :: ("9".toList ++ ',' :: "bad".toList))) ++ [')']) =
      .ok ⟨7, 8, 9⟩ ∧
    parseColor ("hsl(".toList ++
      ("0".toList ++ ' ' :: ("0".toList ++ ' ' ::
        ("50".toList ++ ' ' :: '/' :: ' ' :: "oops".toList))) ++ [')']) = .ok ⟨127, 127, 127⟩ := by
  refine ⟨?_, ?_, ?_, ?_⟩
  · have := c7_alpha_never_validated.1 '0' 'f' '0' 'z' 0 15 0
      (by decide) (by decide) (by decide) (by decide) (by decide)
    simpa using this
  · have := c7_alpha_never_validated.2.1 '0' '0' 'f' 'f' '0' '0' 'z' '!' 0 0 15 15 0 0
      (by decide) (by decide) (by decide) (by decide) (by decide) (by decide)
      (by decide) (by decide) (by decide)
    simpa using this
  · exact c7_alpha_never_validated.2.2.1 _ _ _ _ 7 8 9
      (by decide) (by decide) (by decide) (by decide) (by decide) (by decide) (by decide)
  · exact c7_alpha_never_validated.2.2.2.2.2 _ _ _ _ ⟨127, 127, 127⟩
      (by decide) (by decide) (by decide) (by decide) (by decide) hslTriple_gray50

/-- Claim C4: a functional form whose content yields exactly 4 tokens with no
`/` and no comma is rejected with the family-specific format error, while 4
comma-separated tokens and 3 tokens followed by a slash-alpha succeed (given
valid component values). -/
theorem c4_four_token_rule :
    (∀ c : Str, ')' ∉ c → '/' ∉ c → ',' ∉ c → (splitWs c).length = 4 →
      parseColor ("rgb(".toList ++ c ++ [')']) = .err .invalidRgbFormat) ∧
    (∀ c : Str, ')' ∉ c → '/' ∉ c → ',' ∉ c → (splitWs c).length = 4 →
      parseColor ("hsl(".toList ++ c ++ [')']) = .err .invalidHslFormat) ∧
    (∀ (t1 t2 t3 t4 : Str) (v1 v2 v3 : Nat), isTok t1 → isTok t2 → isTok t3 → isTok t4 →
      parseRgbComponent t1 = .ok v1 → parseRgbComponent t2 = .ok v2 →
      parseRgbComponent t3 = .ok v3 →
      parseColor ("rgb(".toList ++ (t1 ++ ',' :: (t2 ++ ',' :: (t3 ++ ',' :: t4))) ++ [')']) =
        .ok ⟨v1, v2, v3⟩) ∧
    (∀ (t1 t2 t3 a : Str) (v1 v2 v3 : Nat), isTok t1 → isTok t2 → isTok t3 →
      '/' ∉ a → ')' ∉ a →
      parseRgbComponent t1 = .ok v1 → parseRgbComponent t2 = .ok v2 →
      parseRgbComponent t3 = .ok v3 →
      parseColor ("rgb(".toList ++
        (t1 ++ ' ' :: (t2 ++ ' ' :: (t3 ++ ' ' :: '/' :: ' ' :: a))) ++ [')']) =
        .ok ⟨v1, v2, v3⟩) ∧
    (∀ (t1 t2 t3 t4 : Str) (c : Color), isTok t1 → isTok t2 → isTok t3 → isTok t4 →
      hslTriple t1 t2 t3 = .ok c →
      parseColor ("hsl(".toList ++ (t1 ++ ',' :: (t2 ++ ',' :: (t3 ++ ',' :: t4))) ++ [')']) =
        .ok c) ∧
    (∀ (t1 t2 t3 a : Str) (c : Color), isTok t1 → isTok t2 → isTok t3 →
      '/' ∉ a → ')' ∉ a → hslTriple t1 t2 t3 = .ok c →
      parseColor ("hsl(".toList ++
        (t1 ++ ' ' :: (t2 ++ ' ' :: (t3 ++ ' ' :: '/' :: ' ' :: a))) ++ [')']) = .ok c) := by
  refine ⟨?_, ?_, ?_, ?_, ?_, ?_⟩
  · intro c hr hs hcm hlen
    rw [parseColor_rgbp _ hr, rgbCore_space4 c hs hcm hlen]
  · intro c hr hs hcm hlen
    rw [parseColor_hslp _ hr, hslCore_space4 c hs hcm hlen]
  · intro t1 t2 t3 t4 v1 v2 v3 h1 h2 h3 h4 hc1 hc2 hc3
    rw [parseColor_rgbp _ (no_rpar_comma4 t1 t2 t3 t4 h1 h2 h3 h4),
      rgbCore_comma4 t1 t2 t3 t4 h1 h2 h3 h4, rgbTriple_ok t1 t2 t3 v1 v2 v3 hc1 hc2 hc3]
  · intro t1 t2 t3 a v1 v2 v3 h1 h2 h3 has harp hc1 hc2 hc3
    rw [parseColor_rgbp _ (no_rpar_slash3 t1 t2 t3 a h1 h2 h3 harp),
      rgbCore_slash3 t1 t2 t3 a h1 h2 h3 has, rgbTriple_ok t1 t2 t3 v1 v2 v3 hc1 hc2 hc3]
  · intro t1 t2 t3 t4 c h1 h2 h3 h4 htr
    rw [parseColor_hslp _ (no_rpar_comma4 t1 t2 t3 t4 h1 h2 h3 h4),
      hslCore_comma4 t1 t2 t3 t4 h1 h2 h3 h4, htr]
  · intro t1 t2 t3 a c h1 h2 h3 has harp htr
    rw [parseColor_hslp _ (no_rpar_slash3 t1 t2 t3 a h1 h2 h3 harp),
      hslCore_slash3 t1 t2 t3 a h1 h2 h3 has, htr]

/-- Witness for C4: `rgb(1 2 3 4)` and `hsl(5 6 7 8)` are rejected with the
family format errors, while `rgb(1,2,3,bad)`, `rgb(4 5 6 / junk)`,
`hsl(0,0,50,x)` and `hsl(0 0 50 / y)` succeed. -/
theorem c4_witness :
    parseColor ("rgb(".toList ++ "1 2 3 4".toList ++ [')']) = .err .invalidRgbFormat ∧
    parseColor ("hsl(".toList ++ "5 6 7 8".toList ++ [')']) = .err .invalidHslFormat ∧
    parseColor ("rgb(".toList ++
      ("1".toList ++ ',' :: ("2".toList ++ ',' :: ("3".toList ++ ',' :: "bad".toList))) ++ [')']) =
      .ok ⟨1, 2, 3⟩ ∧
    parseColor ("rgb(".toList ++
      ("4".toList ++ ' ' :: ("5".toList ++ ' ' ::
        ("6".toList ++ ' ' :: '/' :: ' ' :: "junk".toList))) ++ [')']) = .ok ⟨4, 5, 6⟩ ∧
    parseColor ("hsl(".toList ++
      ("0".toList ++ ',' :: ("0".toList ++ ',' :: ("50".toList ++ ',' :: "x".toList))) ++ [')']) =
      .ok ⟨127, 127, 127⟩ ∧
    parseColor ("hsl(".toList ++
      ("0".toList ++ ' ' :: ("0".toList ++ ' ' ::
        ("50".toList ++ ' ' :: '/' :: ' ' :: "y".toList))) ++ [')']) = .ok ⟨127, 127, 127⟩ := by
  refine ⟨?_, ?_, ?_, ?_, ?_, ?_⟩
  · exact c4_four_token_rule.1 _ (by decide) (by decide) (by decide) (by decide)
  · exact c4_four_token_rule.2.1 _ (by decide) (by decide) (by decide) (by decide)
  · exact c4_four_token_rule.2.2.1 _ _ _ _ 1 2 3 (by decide) (by decide) (by decide)
      (by decide) (by decide) (by decide) (by decide)
  · exact c4_four_token_rule.2.2.2.1 _ _ _ _ 4 5 6 (by decide) (by decide) (by decide)
      (by decide) (by decide) (by decide) (by decide) (by decide)
  · exact c4_four_token_rule.2.2.2.2.1 _ _ _ _ ⟨127, 127, 127⟩ (by decide) (by decide)
      (by decide) (by decide) hslTriple_gray50
  · exact c4_four_token_rule.2.2.2.2.2 _ _ _ _ ⟨127, 127, 127⟩ (by decide) (by decide)
      (by decide) (by decide) (by decide) hslTriple_gray50

/-- Claim C5: an RGB component token ending in `%` has its remainder parsed as
a float that must lie in `[0, 100]` (else an invalid-component-value error
carrying the trimmed token), and on success yields the value scaled to
`[0, 255]` and rounded half away from zero (`rRound`), with no saturation
actually occurring; a token without `%` must be an integer literal whose value
is at most 255. -/
theorem c5_rgb_component (comp : Str) :
    (∀ w (v : ℚ), stripOnePct (trimS comp) = some w → parseF32 w = some v →
      ((0 ≤ v ∧ v ≤ 100) →
        parseRgbComponent comp = .ok (u8ofZ (rRound (v / 100 * 255))) ∧
        0 ≤ rRound (v / 100 * 255) ∧ rRound (v / 100 * 255) ≤ 255 ∧
        (u8ofZ (rRound (v / 100 * 255)) : ℤ) = rRound (v / 100 * 255)) ∧
      (¬(0 ≤ v ∧ v ≤ 100) →
        parseRgbComponent comp = .err (.invalidComponentValue (trimS comp)))) ∧
    (∀ w, stripOnePct (trimS comp) = some w → parseF32 w = none →
      parseRgbComponent comp = .err (.invalidComponentValue (trimS comp))) ∧
    (stripOnePct (trimS comp) = none →
      (∀ n, parseU8 (trimS comp) = some n →
        parseRgbComponent comp = .ok n ∧ n ≤ 255) ∧
      (parseU8 (trimS comp) = none →
        parseRgbComponent comp = .err (.invalidComponentValue (trimS comp)))) := by
  refine ⟨?_, ?_, ?_⟩
  · intro w v hw hv
    constructor
    · intro hrange
      have hx0 : (0 : ℚ) ≤ v / 100 * 255 := by
        have := hrange.1
        positivity
      have hx1 : v / 100 * 255 ≤ 255 := by
        rw [div_mul_eq_mul_div, div_le_iff (by norm_num : (0 : ℚ) < 100)]
        nlinarith [hrange.2]
      have hr0 : 0 ≤ rRound (v / 100 * 255) := by
        unfold rRound
        rw [if_pos hx0]
        exact Int.floor_nonneg.mpr (by linarith)
      have hr1 : rRound (v / 100 * 255) ≤ 255 := by
        unfold rRound
        rw [if_pos hx0]
        have h2 : (v / 100 * 255 + 1 / 2 : ℚ) ≤ 511 / 2 := by linarith
        have h3 := Int.floor_le_floor h2
        have h4 : (⌊(511 / 2 : ℚ)⌋ : ℤ) = 255 := by norm_num
        omega
      refine ⟨?_, hr0, hr1, ?_⟩
      · unfold parseRgbComponent
        dsimp only
        rw [hw]
        dsimp only
        rw [hv]
        dsimp only
        rw [if_pos hrange]
      · unfold u8ofZ
        rw [if_neg (by omega), if_neg (by omega)]
        omega
    · intro hrange
      unfold parseRgbComponent
      dsimp only
      rw [hw]
      dsimp only
      rw [hv]
      dsimp only
      rw [if_neg hrange]
  · intro w hw hv
    unfold parseRgbComponent
    dsimp only
    rw [hw]
    dsimp only
    rw [hv]
  · intro hw
    constructor
    · intro n hn
      constructor
      · unfold parseRgbComponent
        dsimp only
        rw [hw]
        dsimp only
        rw [hn]
      · exact parseU8_le _ _ hn
    · intro hn
      unfold parseRgbComponent
      dsimp only
      rw [hw]
      dsimp only
      rw [hn]

/-- Witness for C5: `"50%"` scales and rounds 127.5 half away from zero to
128; `"256"` is rejected as out of the integer range; `"255"` is accepted. -/
theorem c5_witness :
    parseRgbComponent ("50%".toList) = .ok 128 ∧
    parseRgbComponent ("255".toList) = .ok 255 ∧
    parseRgbComponent ("101%".toList) =
      .err (.invalidComponentValue (trimS ("101%".toList))) := by
  refine ⟨?_, ?_, ?_⟩
  · have h := ((c5_rgb_component ("50%".toList)).1 ("50".toList) 50 (by decide) (by decide)).1
      (by norm_num)
    have e : u8ofZ (rRound ((50 : ℚ) / 100 * 255)) = 128 := by
      have er : rRound ((50 : ℚ) / 100 * 255) = 128 := by
        unfold rRound
        rw [if_pos (by norm_num)]
        norm_num
      rw [er]
      decide
    rw [e] at h
    exact h.1
  · exact (((c5_rgb_component ("255".toList)).2.2 (by decide)).1 255 (by decide)).1
  · exact ((c5_rgb_component ("101%".toList)).1 ("101".toList) 101 (by decide) (by decide)).2
      (by norm_num)

/-! ### Named-lookup failure lemmas -/

theorem named_find_none (t : Str) (h : '(' ∈ lowerS t) :
    namedTable.find? (fun p => p.1 == lowerS t) = none := by
  rw [List.find?_eq_none]
  intro pr hmem
  have hall : ∀ q ∈ namedTable, '(' ∉ q.1 := by decide
  intro hbeq
  rw [beq_iff_eq] at hbeq
  exact hall pr hmem (hbeq ▸ h)

theorem parseColor_unknown_of (s : Str) (hne : trimS s ≠ [])
    (hhash : startsL (trimS s) ['#'] = false)
    (hend : endsC (trimS s) ')' = false)
    (hpar : '(' ∈ lowerS (trimS s)) :
    parseColor s = .err (.unknownColorName (trimS s)) := by
  unfold parseColor
  dsimp only
  rw [if_neg hne, if_neg (by simp [hhash]), if_neg (by simp [hend]), if_neg (by simp [hend])]
  unfold parseNamed
  rw [named_find_none _ hpar]

/-- Claim C6 counterexample: `rgb(255, 0, 0` (missing closing parenthesis)
fails with `UnknownColorName` carrying the trimmed input — not with
`InvalidRgbFormat` as the claim states. -/
theorem c6_counterexample :
    parseColor ("rgb(255, 0, 0".toList) = .err (.unknownColorName ("rgb(255, 0, 0".toList)) ∧
    parseColor ("rgb(255, 0, 0".toList) ≠ .err .invalidRgbFormat := by
  exact ⟨by decide, by decide⟩

/-- Claim C6 (amended): an input whose trimmed form starts with `rgb(`,
`rgba(`, `hsl(` or `hsla(` but does not end with `)` never reaches the
functional parser: the dispatcher routes it to named-color lookup, which fails
with an unknown-color-name error carrying the whole trimmed input. -/
theorem c6_missing_paren_unknown_name (s : Str)
    (hpfx : startsL (trimS s) ("rgb(".toList) = true ∨
      startsL (trimS s) ("rgba(".toList) = true ∨
      startsL (trimS s) ("hsl(".toList) = true ∨
      startsL (trimS s) ("hsla(".toList) = true)
    (hend : endsC (trimS s) ')' = false) :
    parseColor s = .err (.unknownColorName (trimS s)) := by
  have hmain : trimS s ≠ [] ∧ startsL (trimS s) ['#'] = false ∧ '(' ∈ lowerS (trimS s) := by
    rcases hpfx with h | h | h | h <;>
      obtain ⟨r, hr⟩ := (startsL_iff _ _).mp h <;>
      rw [hr] <;>
      refine ⟨by simp, by simp [startsL], ?_⟩ <;>
      · show '(' ∈ List.map lowChar _
        rw [List.map_append]
        exact List.mem_append_left _ (by decide)
  exact parseColor_unknown_of s hmain.1 hmain.2.1 hend hmain.2.2

/-- Witness for the amended C6 on all four prefixes. -/
theorem c6_witness :
    parseColor ("rgb(255, 0, 0".toList) = .err (.unknownColorName ("rgb(255, 0, 0".toList)) ∧
    parseColor (" rgba(1,2,3,4".toList) = .err (.unknownColorName ("rgba(1,2,3,4".toList)) ∧
    parseColor ("hsl(120, 100%, 50%".toList) =
      .err (.unknownColorName ("hsl(120, 100%, 50%".toList)) ∧
    parseColor ("hsla(1,2,3,4".toList) = .err (.unknownColorName ("hsla(1,2,3,4".toList)) := by
  refine ⟨?_, ?_, ?_, ?_⟩
  · have h := c6_missing_paren_unknown_name ("rgb(255, 0, 0".toList)
      (Or.inl (by decide)) (by decide)
    simpa using h
  · have h := c6_missing_paren_unknown_name (" rgba(1,2,3,4".toList)
      (Or.inr (Or.inl (by decide))) (by decide)
    have e : trimS (" rgba(1,2,3,4".toList) = "rgba(1,2,3,4".toList := by decide
    rw [e] at h
    exact h
  · have h := c6_missing_paren_unknown_name ("hsl(120, 100%, 50%".toList)
      (Or.inr (Or.inr (Or.inl (by decide)))) (by decide)
    simpa using h
  · have h := c6_missing_paren_unknown_name ("hsla(1,2,3,4".toList)
      (Or.inr (Or.inr (Or.inr (by decide)))) (by decide)
    simpa using h

/-! ### Concrete HSL range-error evaluation -/

theorem hslTriple_h400 :
    hslTriple ("400".toList) ("100%".toList) ("50%".toList) =
      .err (.invalidComponentValue ("H: 400".toList)) := by
  have hh : parseHueTok ("400".toList) = some 400 := by decide
  have hs : parsePctTok ("100%".toList) = some 100 := by decide
  have hl : parsePctTok ("50%".toList) = some 50 := by decide
  unfold hslTriple
  rw [hh]
  dsimp only
  rw [hs]
  dsimp only
  rw [hl]
  dsimp only
  rw [if_pos (by norm_num)]
  have e : fmtQ (400 : ℚ) = "400".toList := by decide
  rw [e]
  decide

/-- Claim C8 counterexample: the out-of-range hue token `400` in
`hsl(400, 100%, 50%)` produces an invalid-component-value error carrying
`"H: 400"` — a label-formatted value — not the original token `"400"`. -/
theorem c8_counterexample :
    parseColor ("hsl(400, 100%, 50%)".toList) =
      .err (.invalidComponentValue ("H: 400".toList)) ∧
    "H: 400".toList ≠ "400".toList := by
  constructor
  · have e : "hsl(400, 100%, 50%)".toList =
        "hsl(".toList ++ "400, 100%, 50%".toList ++ [')'] := by decide
    rw [e, parseColor_hslp _ (by decide)]
    unfold hslCore
    rw [splitSlash_none _ (by decide)]
    dsimp only
    have esp : splitWs (commaToSpace ("400, 100%, 50%".toList)) =
        ["400".toList, "100%".toList, "50%".toList] := by decide
    rw [esp]
    dsimp only
    exact hslTriple_h400
  · decide

/-- Claim C8 (amended): every invalid-component-value error of the RGB
component parser carries the trimmed original token; in the HSL family, the
errors of the three token parses carry the original token, but the
out-of-range checks instead carry a label-formatted numeric value
(`"H: "`, `"S: "` or `"L: "` followed by the formatted parsed value, not the
original token text). -/
theorem c8_error_payload :
    (∀ comp e, parseRgbComponent comp = .err (.invalidComponentValue e) → e = trimS comp) ∧
    (∀ p0 p1 p2 e, hslTriple p0 p1 p2 = .err (.invalidComponentValue e) →
      e = p0 ∨ e = p1 ∨ e = p2 ∨
      ∃ x : ℚ, e = "H: ".toList ++ fmtQ x ∨ e = "S: ".toList ++ fmtQ x ∨
        e = "L: ".toList ++ fmtQ x) := by
  constructor
  · intro comp e h
    unfold parseRgbComponent at h
    dsimp only at h
    split at h
    · split at h
      · injection h with h
        injection h with h
        exact h.symm
      · split at h
        · exact PRes.noConfusion h
        · injection h with h
          injection h with h
          exact h.symm
    · split at h
      · exact PRes.noConfusion h
      · injection h with h
        injection h with h
        exact h.symm
  · intro p0 p1 p2 e h
    unfold hslTriple at h
    split at h
    · injection h with h
      injection h with h
      exact Or.inl h.symm
    · rename_i hq
      split at h
      · injection h with h
        injection h with h
        exact Or.inr (Or.inl h.symm)
      · split at h
        · injection h with h
          injection h with h
          exact Or.inr (Or.inr (Or.inl h.symm))
        · rename_i hv hs hl
          split at h
          · rename_i hx
            injection h with h
            injection h with h
            exact Or.inr (Or.inr (Or.inr ⟨_, Or.inl h.symm⟩))
          · split at h
            · injection h with h
              injection h with h
              exact Or.inr (Or.inr (Or.inr ⟨_, Or.inr (Or.inl h.symm)⟩))
            · split at h
              · injection h with h
                injection h with h
                exact Or.inr (Or.inr (Or.inr ⟨_, Or.inr (Or.inr h.symm)⟩))
              · exact PRes.noConfusion h

/-- Witness for the amended C8: the non-numeric token `abc` is carried
verbatim by the RGB component parser. -/
theorem c8_witness : ("abc".toList : Str) = trimS ("abc".toList) :=
  c8_error_payload.1 ("abc".toList) ("abc".toList) (by decide)

/-! ### Hue 360 ≡ hue 0 -/

theorem hueToRgb_eq_r (p q : ℚ) : hueToRgb p q (1 + 1 / 3) = hueToRgb p q (0 + 1 / 3) := by
  unfold hueToRgb
  norm_num

theorem hueToRgb_eq_g (p q : ℚ) : hueToRgb p q 1 = hueToRgb p q 0 := by
  unfold hueToRgb
  norm_num

theorem hueToRgb_eq_b (p q : ℚ) : hueToRgb p q (1 - 1 / 3) = hueToRgb p q (0 - 1 / 3) := by
  unfold hueToRgb
  norm_num

theorem hslToRgb_1_eq_0 (s l : ℚ) : hslToRgb 1 s l = hslToRgb 0 s l := by
  unfold hslToRgb
  by_cases hs0 : s = 0
  · rw [if_pos hs0, if_pos hs0]
  · rw [if_neg hs0, if_neg hs0]
    dsimp only
    rw [hueToRgb_eq_r, hueToRgb_eq_g, hueToRgb_eq_b]

theorem hslTriple_360_eq_0 (s l : Str) :
    hslTriple ("360".toList) s l = hslTriple ("0".toList) s l := by
  have h360 : parseHueTok ("360".toList) = some 360 := by decide
  have h0 : parseHueTok ("0".toList) = some 0 := by decide
  unfold hslTriple
  rw [h360, h0]
  dsimp only
  cases hps : parsePctTok s with
  | none => rfl
  | some sv =>
    dsimp only
    cases hpl : parsePctTok l with
    | none => rfl
    | some lv =>
      dsimp only
      rw [if_neg (show ¬¬((0 : ℚ) ≤ 360 ∧ (360 : ℚ) ≤ 360) from by norm_num),
        if_neg (show ¬¬((0 : ℚ) ≤ 0 ∧ (0 : ℚ) ≤ 360) from by norm_num)]
      by_cases hsr : 0 ≤ sv ∧ sv ≤ 100
      · rw [if_neg (not_not_intro hsr), if_neg (not_not_intro hsr)]
        by_cases hlr : 0 ≤ lv ∧ lv ≤ 100
        · rw [if_neg (not_not_intro hlr), if_neg (not_not_intro hlr)]
          rw [show (360 : ℚ) / 360 = 1 from by norm_num, show (0 : ℚ) / 360 = 0 from by norm_num]
          exact congrArg _ (hslToRgb_1_eq_0 _ _)
        · rw [if_pos hlr, if_pos hlr]
      · rw [if_pos hsr, if_pos hsr]

theorem no_rpar_comma3 (t0 t1 t2 : Str) (h0 : ')' ∉ t0) (h1 : ')' ∉ t1) (h2 : ')' ∉ t2) :
    ')' ∉ t0 ++ ',' :: ' ' :: (t1 ++ ',' :: ' ' :: t2) := by
  intro hm
  simp only [List.mem_append, List.mem_cons] at hm
  rcases hm with h | h | h | h | h | h | h
  · exact h0 h
  · cases h
  · cases h
  · exact h1 h
  · cases h
  · cases h
  · exact h2 h

theorem no_slash_comma3 (t0 t1 t2 : Str) (h0 : '/' ∉ t0) (h1 : '/' ∉ t1) (h2 : '/' ∉ t2) :
    '/' ∉ t0 ++ ',' :: ' ' :: (t1 ++ ',' :: ' ' :: t2) := by
  intro hm
  simp only [List.mem_append, List.mem_cons] at hm
  rcases hm with h | h | h | h | h | h | h
  · exact h0 h
  · cases h
  · cases h
  · exact h1 h
  · cases h
  · cases h
  · exact h2 h

theorem hslCore_comma3 (t0 t1 t2 : Str) (h0 : isTok t0) (h1 : isTok t1) (h2 : isTok t2) :
    hslCore (t0 ++ ',' :: ' ' :: (t1 ++ ',' :: ' ' :: t2)) = hslTriple t0 t1 t2 := by
  unfold hslCore
  rw [splitSlash_none _ (no_slash_comma3 t0 t1 t2 (tok_no_slash h0) (tok_no_slash h1)
    (tok_no_slash h2))]
  dsimp only
  have m0 : commaToSpace t0 = t0 := commaToSpace_of_not_mem _ (tok_no_comma h0)
  have m1 : commaToSpace t1 = t1 := commaToSpace_of_not_mem _ (tok_no_comma h1)
  have m2 : commaToSpace t2 = t2 := commaToSpace_of_not_mem _ (tok_no_comma h2)
  have hcts : commaToSpace (t0 ++ ',' :: ' ' :: (t1 ++ ',' :: ' ' :: t2)) =
      t0 ++ ' ' :: ' ' :: (t1 ++ ' ' :: ' ' :: t2) := by
    rw [commaToSpace_app, m0, commaToSpace_comma]
    have : commaToSpace (' ' :: (t1 ++ ',' :: ' ' :: t2)) =
        ' ' :: commaToSpace (t1 ++ ',' :: ' ' :: t2) := by
      simp [commaToSpace]
    rw [this, commaToSpace_app, m1, commaToSpace_comma]
    have : commaToSpace (' ' :: t2) = ' ' :: commaToSpace t2 := by simp [commaToSpace]
    rw [this, m2]
  rw [hcts]
  have hsp : splitWs (t0 ++ ' ' :: ' ' :: (t1 ++ ' ' :: ' ' :: t2)) = [t0, t1, t2] := by
    rw [splitWs_tok t0 (tok_nonws h0) h0.1 ' ' (by decide) _, splitWs_ws ' ' _ (by decide),
      splitWs_tok t1 (tok_nonws h1) h1.1 ' ' (by decide) _, splitWs_ws ' ' _ (by decide),
      splitWs_tok_nil t2 (tok_nonws h2) h2.1]
  rw [hsp]

/-- Claim C9: hue token `360` denotes the same colors as hue token `0` — for
every saturation token `s` and lightness token `l`, `hsl(360, s, l)` parses to
the same result as `hsl(0, s, l)`. -/
theorem c9_hue360_eq_hue0 (s l : Str) (hs : isTok s) (hl : isTok l) :
    parseColor ("hsl(".toList ++
      ("360".toList ++ ',' :: ' ' :: (s ++ ',' :: ' ' :: l)) ++ [')']) =
    parseColor ("hsl(".toList ++
      ("0".toList ++ ',' :: ' ' :: (s ++ ',' :: ' ' :: l)) ++ [')']) := by
  have htok360 : isTok ("360".toList) := by decide
  have htok0 : isTok ("0".toList) := by decide
  rw [parseColor_hslp _ (no_rpar_comma3 _ _ _ (by decide) (tok_no_rpar hs) (tok_no_rpar hl)),
    parseColor_hslp _ (no_rpar_comma3 _ _ _ (by decide) (tok_no_rpar hs) (tok_no_rpar hl)),
    hslCore_comma3 _ _ _ htok360 hs hl, hslCore_comma3 _ _ _ htok0 hs hl,
    hslTriple_360_eq_0]

/-- Witness for C9 at `s = "100%"`, `l = "50%"`. -/
theorem c9_witness :
    parseColor ("hsl(".toList ++
      ("360".toList ++ ',' :: ' ' :: ("100%".toList ++ ',' :: ' ' :: "50%".toList)) ++ [')']) =
    parseColor ("hsl(".toList ++
      ("0".toList ++ ',' :: ' ' :: ("100%".toList ++ ',' :: ' ' :: "50%".toList)) ++ [')']) :=
  c9_hue360_eq_hue0 _ _ (by decide) (by decide)

/-! ### Case-sensitive functional-prefix dispatch -/

theorem prefix_match (P X q Y : Str) (h : P ++ X = q ++ Y) (hl : P.length ≤ q.length) :
    q.take P.length = P := by
  have h1 : (q ++ Y).take P.length = q.take P.length ++ Y.take (P.length - q.length) :=
    List.take_append_eq_append_take
  rw [Nat.sub_eq_zero_of_le hl] at h1
  simp only [List.take_zero, List.append_nil] at h1
  rw [← h] at h1
  rw [show (P ++ X).take P.length = P from List.take_left' rfl] at h1
  exact h1.symm

theorem no_lower_variant_starts (v r q : Str)
    (hq : q = "rgb(".toList ∨ q = "rgba(".toList ∨ q = "hsl(".toList ∨ q = "hsla(".toList)
    (hP : lowerS v = "rgb(".toList ∨ lowerS v = "rgba(".toList ∨ lowerS v = "hsl(".toList ∨
      lowerS v = "hsla(".toList)
    (hne : v ≠ lowerS v) :
    startsL (v ++ r) q = false := by
  cases hb : startsL (v ++ r) q
  · rfl
  · exfalso
    obtain ⟨r2, hr2⟩ := (startsL_iff _ _).mp hb
    have hlow0 : lowerS v ++ lowerS r = lowerS q ++ lowerS r2 := by
      have h2 : lowerS (v ++ r) = lowerS (q ++ r2) := by rw [hr2]
      simpa [lowerS] using h2
    have hlenv : v.length = (lowerS v).length := by simp [lowerS]
    have l1 : lowerS ("rgb(".toList) = "rgb(".toList := by decide
    have l2 : lowerS ("rgba(".toList) = "rgba(".toList := by decide
    have l3 : lowerS ("hsl(".toList) = "hsl(".toList := by decide
    have l4 : lowerS ("hsla(".toList) = "hsla(".toList := by decide
    rcases hP with hP | hP | hP | hP <;> rcases hq with rfl | rfl | rfl | rfl <;>
      rw [hP] at hlow0 hlenv <;>
      simp only [l1, l2, l3, l4] at hlow0 <;>
      first
      | exact absurd (prefix_match _ _ _ _ hlow0 (by decide)) (by decide)
      | exact absurd (prefix_match _ _ _ _ hlow0.symm (by decide)) (by decide)
      | exact hne (by rw [hP, (List.append_inj hr2 (by simpa using hlenv)).1])

/-- Claim C10: the functional prefixes are matched case-sensitively while
named lookup is case-insensitive: an input whose trimmed form starts with any
non-lowercase case variant of `rgb(`, `rgba(`, `hsl(` or `hsla(` bypasses the
functional parsers and fails in named-color lookup with an unknown-color-name
error carrying the whole trimmed input. -/
theorem c10_case_sensitive_dispatch (s v r : Str)
    (hv : lowerS v = "rgb(".toList ∨ lowerS v = "rgba(".toList ∨ lowerS v = "hsl(".toList ∨
      lowerS v = "hsla(".toList)
    (hne : v ≠ lowerS v)
    (htr : trimS s = v ++ r) :
    parseColor s = .err (.unknownColorName (v ++ r)) := by
  have hvne : v ≠ [] := by
    rintro rfl
    rcases hv with h | h | h | h <;> simp [lowerS] at h
  obtain ⟨a, v', rfl⟩ : ∃ a v', v = a :: v' := by
    cases v
    · exact absurd rfl hvne
    · exact ⟨_, _, rfl⟩
  have e1 : ("rgb(".toList : Str) = ['r', 'g', 'b', '('] := rfl
  have e2 : ("rgba(".toList : Str) = ['r', 'g', 'b', 'a', '('] := rfl
  have e3 : ("hsl(".toList : Str) = ['h', 's', 'l', '('] := rfl
  have e4 : ("hsla(".toList : Str) = ['h', 's', 'l', 'a', '('] := rfl
  have hhash : startsL ((a :: v') ++ r) ['#'] = false := by
    have hla : lowChar a = 'r' ∨ lowChar a = 'h' := by
      rcases hv with h | h | h | h <;>
        simp only [e1, e2, e3, e4, lowerS, List.map_cons, List.cons.injEq] at h <;>
        first
        | exact Or.inl h.1
        | exact Or.inr h.1
    have hane : a ≠ '#' := by
      rintro rfl
      rcases hla with h | h <;>
        rw [show lowChar '#' = '#' from by decide] at h <;>
        exact absurd h (by decide)
    simp [startsL, hane]
  have hrgb1 := no_lower_variant_starts (a :: v') r ("rgb(".toList) (Or.inl rfl) hv hne
  have hrgb2 := no_lower_variant_starts (a :: v') r ("rgba(".toList) (Or.inr (Or.inl rfl)) hv hne
  have hhsl1 := no_lower_variant_starts (a :: v') r ("hsl(".toList)
    (Or.inr (Or.inr (Or.inl rfl))) hv hne
  have hhsl2 := no_lower_variant_starts (a :: v') r ("hsla(".toList)
    (Or.inr (Or.inr (Or.inr rfl))) hv hne
  have hpar : '(' ∈ lowerS ((a :: v') ++ r) := by
    have hsplit : lowerS ((a :: v') ++ r) = lowerS (a :: v') ++ lowerS r := by
      simp [lowerS]
    rw [hsplit]
    rcases hv with h | h | h | h <;> rw [h] <;> exact List.mem_append_left _ (by decide)
  rw [List.cons_append] at hhash hrgb1 hrgb2 hhsl1 hhsl2
  rw [e1] at hrgb1
  rw [e2] at hrgb2
  rw [e3] at hhsl1
  rw [e4] at hhsl2
  unfold parseColor
  dsimp only
  rw [htr]
  rw [if_neg (by simp), if_neg (by simp [hhash]), if_neg (by simp [hrgb1, hrgb2]),
    if_neg (by simp [hhsl1, hhsl2])]
  unfold parseNamed
  rw [named_find_none _ hpar]

/-- Witness for C10: `RGB(255, 0, 0)` routes to named lookup and fails with an
unknown-color-name error carrying the trimmed input. -/
theorem c10_witness :
    parseColor ("RGB(255, 0, 0)".toList) =
      .err (.unknownColorName ("RGB(".toList ++ "255, 0, 0)".toList)) :=
  c10_case_sensitive_dispatch _ ("RGB(".toList) ("255, 0, 0)".toList)
    (Or.inl (by decide)) (by decide) (by decide)

end ColourSS
